import Mathlib

/-!
# ngx-mqtt: `MqttService` (src/src/mqtt.service.js)

A shallow embedding of the topic-filter matcher `MqttService.filterMatchesTopic`
and of the ref-counted subscription life cycle of `MqttService`
(`_generalObserve`, the transport event handlers), with the properties of the
specification that were checked against them.

JavaScript strings are modelled as lists of characters.
-/

namespace MqttService

/-- A JavaScript string. -/
abbrev Str := List Char

/-! ## `MqttService.filterMatchesTopic` -/

/-- `String.prototype.split(sep)` for a one-character separator: the pieces
between the separators, in order; the empty string gives one empty piece. -/
def split (sep : Char) : Str → List Str
  | [] => [[]]
  | c :: cs =>
    if c = sep then [] :: split sep cs
    else
      match split sep cs with
      | [] => [[c]]
      | l :: ls => (c :: l) :: ls

/-- `Array.prototype.pop()`: the last element (`undefined`, here `none`, on an
empty array) and the array without it. -/
def pop {α : Type} (a : List α) : Option α × List α :=
  (a.getLast?, a.dropLast)

/-- JavaScript truthiness of a value that is a string or `undefined`. -/
def truthy : Option Str → Bool
  | none => false
  | some [] => false
  | some (_ :: _) => true

/-- The inner function `match` of `filterMatchesTopic`, on the current contents
of the arrays `fs` and `ts`. Each call pops one element of each array; the
first argument bounds the number of calls, `none` when the bound is hit. -/
def matchLoop : Nat → List Str → List Str → Option Bool
  | 0, _, _ => none
  | n + 1, fs, ts =>
    let f := (pop fs).1
    let t := (pop ts).1
    match f with
    | some f' =>
      if f' = ['#'] then some true
      else if f' = ['+'] then
        (if truthy t then matchLoop n (pop fs).2 (pop ts).2 else some false)
      else if f = t then matchLoop n (pop fs).2 (pop ts).2
      else some false
    | none => some (decide (t = none))

/-- `MqttService.filterMatchesTopic(filter, topic)`. -/
def filterMatchesTopic (filter topic : Str) : Option Bool :=
  if filter.head? = some '#' ∧ topic.head? = some '$' then some false
  else
    let fs := (split '/' filter).reverse
    let ts := (split '/' topic).reverse
    matchLoop (fs.length + 1) fs ts

/-- Levels joined with `/` (the inverse of `split '/'`). -/
def joinLevels : List Str → Str
  | [] => []
  | [l] => l
  | l :: l' :: ls => l ++ '/' :: joinLevels (l' :: ls)

/-- The level-by-level reading of the matcher, walking both level lists from
the front. -/
def matchLevels : List Str → List Str → Bool
  | [], ts => ts.isEmpty
  | f :: fs, ts =>
    if f = ['#'] then true
    else if f = ['+'] then
      match ts with
      | [] => false
      | t :: ts' => !t.isEmpty && matchLevels fs ts'
    else
      match ts with
      | [] => false
      | t :: ts' => decide (f = t) && matchLevels fs ts'

/-! ## The service

The state of one `MqttService` instance and of the RxJS objects it builds.
Every observable stored in `this.observables` is
`using(resourceFactory, observableFactory).pipe(filter(..), publishFn(), refCount())`;
the record `MqttObservable` holds the mutable state of that pipeline as RxJS 6
keeps it: the `Subject` `rejected_1`, the multicast subject created by
`publishFn()` (a `Subject` for `publish()`, a `ReplaySubject(1)` for
`publishReplay(1)`), and the `_refCount` and `_connection` fields of the
`ConnectableObservable`. Observers are passive: they record what they receive
and call nothing back while a notification is delivered.

The service talks to one transport client, whose calls are logged; `connect`,
`disconnect` and the two publish methods only forward to that client and are
not part of the model. The registry `this.observables` is an object literal,
so reading a name that `Object.prototype` defines yields the inherited value;
`Object.keys` is modelled in insertion order, and nothing below depends on
that order. -/

/-- The subscribe options; only the requested QoS matters here. -/
structure Opts where
  qos : Nat
deriving DecidableEq, Repr

/-- The argument `publishFn` of `_generalObserve`. -/
inductive PublishFn where
  | publish
  | publishReplay
deriving DecidableEq, Repr

/-- An MQTT packet as passed to `_handleOnMessage`. -/
structure Packet where
  cmd : Str
  topic : Str
  payload : Str
deriving DecidableEq, Repr

/-- What an observer of a stream can receive. -/
inductive Notification where
  | next (p : Packet)
  | error (e : Str)
deriving DecidableEq, Repr

/-- One subscriber of a stream: the notifications it received, oldest first,
and whether its subscription is closed (unsubscribed or failed). -/
structure Observer where
  received : List Notification
  closed : Bool
deriving DecidableEq, Repr

/-- The state behind one observable created by `_generalObserve`. -/
structure MqttObservable where
  /-- The captured `filterString`. -/
  filterString : Str
  /-- The captured `opts`. -/
  opts : Opts
  /-- The captured `publishFn`. -/
  publishFn : PublishFn
  /-- The field `thrownError` of `rejected_1`, `none` while it has no error. -/
  rejectedError : Option Str
  /-- The field `thrownError` of the multicast subject. -/
  subjectError : Option Str
  /-- The events kept by the `ReplaySubject(1)`. -/
  buffer : Option Packet
  /-- The field `_refCount` of the connectable observable. -/
  refCount : Nat
  /-- Whether `_connection` is set: the source (`using`, `merge`, `filter`) is
  subscribed, so `rejected_1` and `this.messages` each have it as observer. -/
  connection : Bool
  /-- Every subscriber the stream ever had, in order of subscription. -/
  observers : List Observer
deriving DecidableEq, Repr

/-- A call made on `this.client`. A subscribe made by a resource factory
carries its options and its callback (named by the index of its observable);
the subscribes of the connect handlers carry neither. -/
inductive ClientCall where
  | subscribe (filter : Str) (opts : Option Opts) (callback : Option Nat)
  | unsubscribe (filter : Str)
deriving DecidableEq, Repr

/-- The connection states of `MqttConnectionState`. -/
inductive MqttConnectionState where
  | CLOSED
  | CONNECTING
  | CONNECTED
deriving DecidableEq, Repr

/-- A value emitted on one of the event emitters of the service. -/
inductive Emitted where
  | onClose
  | onConnect
  | onReconnect
  | onError
  | onMessage (p : Packet)
  | onSuback (filter : Str) (granted : Bool)
deriving DecidableEq, Repr

/-- One element of the array `granted` passed to a subscribe callback. -/
structure Granted where
  topic : Str
  qos : Nat
deriving DecidableEq, Repr

/-- The result of reading a property of `this.observables`. -/
inductive JsValue where
  | undefined
  | observable (id : Nat)
  | inherited
deriving DecidableEq, Repr

/-- The state of the service. `observables` holds the own properties of
`this.observables` in insertion order, each naming an element of `streams`,
the observables created so far. -/
structure Service where
  /-- Whether `this.client` is set. -/
  client : Bool
  observables : List (Str × Nat)
  streams : List MqttObservable
  /-- The calls made on the client, oldest first. -/
  calls : List ClientCall
  /-- The subscribe callbacks the client has not called yet. -/
  pending : List Nat
  state : MqttConnectionState
  /-- The values emitted so far, oldest first. -/
  emitted : List Emitted
deriving DecidableEq, Repr

/-- The property names every object literal inherits from `Object.prototype`. -/
def objectPrototypeKeys : List Str :=
  ["constructor".toList, "__defineGetter__".toList, "__defineSetter__".toList,
   "hasOwnProperty".toList, "__lookupGetter__".toList, "__lookupSetter__".toList,
   "isPrototypeOf".toList, "propertyIsEnumerable".toList, "toString".toList,
   "valueOf".toList, "__proto__".toList, "toLocaleString".toList]

/-- The own property `k` of the object, if any. -/
def lookupOwn : List (Str × Nat) → Str → Option Nat
  | [], _ => none
  | (k', v) :: o, k => if k' = k then some v else lookupOwn o k

/-- The read `this.observables[k]`: an own property, else an inherited one. -/
def getProp (o : List (Str × Nat)) (k : Str) : JsValue :=
  match lookupOwn o k with
  | some id => .observable id
  | none => if k ∈ objectPrototypeKeys then .inherited else .undefined

/-- The assignment `this.observables[k] = v`. -/
def setProp : List (Str × Nat) → Str → Nat → List (Str × Nat)
  | [], k, v => [(k, v)]
  | (k', v') :: o, k, v => if k' = k then (k, v) :: o else (k', v') :: setProp o k v

/-- The statement `delete this.observables[k]`. -/
def deleteProp (o : List (Str × Nat)) (k : Str) : List (Str × Nat) :=
  o.filter (fun e => decide (e.1 ≠ k))

/-- The keys `Object.keys(this.observables)`, here in insertion order. -/
def keys (o : List (Str × Nat)) : List Str :=
  o.map (fun e => e.1)

/-- Number of subscribers of a stream that are still subscribed. -/
def openCount (obs : List Observer) : Nat :=
  (obs.filter (fun ob => !ob.closed)).length

/-- The state with observable `id` replaced. -/
def Service.put (s : Service) (id : Nat) (o : MqttObservable) : Service :=
  { s with streams := s.streams.set id o }

/-- The teardown added to the resource of `using`:
`delete _this.observables[filterString]; _this.client.unsubscribe(filterString)`. -/
def teardownResource (s : Service) (filterString : Str) : Service :=
  { s with observables := deleteProp s.observables filterString,
           calls := s.calls ++ [.unsubscribe filterString] }

/-- `Subject.prototype.error` on the multicast subject: it records the error
and sends it to every current subscriber, which closes them. -/
def failSubject (o : MqttObservable) (e : Str) : MqttObservable :=
  { o with subjectError := some e,
           observers := o.observers.map (fun ob =>
             if ob.closed then ob
             else { received := ob.received ++ [.error e], closed := true }) }

/-- The unsubscription of the connection: `ConnectableSubscriber._unsubscribe`
resets `_refCount` and `_connection`, then the source subscription is torn
down, which runs the teardown of the resource. -/
def unsubscribeConnection (s : Service) (id : Nat) (o : MqttObservable) : Service :=
  teardownResource (s.put id { o with refCount := 0, connection := false }) o.filterString

/-- `RefCountSubscriber._unsubscribe`, with `o` the observable as it is when
the subscriber unsubscribes. -/
def refCountUnsubscribe (s : Service) (id : Nat) (o : MqttObservable) : Service :=
  if o.refCount = 0 then s.put id o
  else if 1 < o.refCount then s.put id { o with refCount := o.refCount - 1 }
  else if o.connection then unsubscribeConnection s id { o with refCount := o.refCount - 1 }
  else s.put id { o with refCount := o.refCount - 1 }

/-- `ConnectableObservable.connect()` when there is no connection: the source
is subscribed. The resource factory of `using` calls
`client.subscribe(filterString, opts, callback)`; then `merge` subscribes to
`rejected_1` and to `this.messages`. If `rejected_1` already has an error it
is passed on at once: the connection is reset, the subject fails, and the
teardown of the resource runs. -/
def connectSource (s : Service) (id : Nat) (o : MqttObservable) : Service :=
  let s1 : Service :=
    { s with calls := s.calls ++ [.subscribe o.filterString (some o.opts) (some id)],
             pending := s.pending ++ [id] }
  match o.rejectedError with
  | some e =>
    teardownResource (s1.put id (failSubject { o with refCount := 0, connection := false } e))
      o.filterString
  | none => s1.put id { o with connection := true }

/-- What a subject sends to a new subscriber at once: the buffered event of a
`ReplaySubject(1)`, nothing for a `Subject`. -/
def replayed (o : MqttObservable) : List Notification :=
  match o.publishFn with
  | .publishReplay => o.buffer.toList.map Notification.next
  | .publish => []

/-- An observer subscribes to observable `id` (`RefCountOperator.call`):
`_refCount` is incremented, the new subscriber subscribes to the multicast
subject, and unless that closed it at once, `connect()` is called. The new
subscriber is the last element of `observers`. -/
def attach (s : Service) (id : Nat) : Service :=
  match s.streams[id]? with
  | none => s
  | some o =>
    match o.subjectError with
    | some e =>
      refCountUnsubscribe s id
        { o with refCount := o.refCount + 1,
                 observers := o.observers ++ [⟨replayed o ++ [.error e], true⟩] }
    | none =>
      let o1 : MqttObservable :=
        { o with refCount := o.refCount + 1,
                 observers := o.observers ++ [⟨replayed o, false⟩] }
      if o1.connection then s.put id o1 else connectSource s id o1

/-- Subscriber `i` of observable `id` unsubscribes. -/
def detach (s : Service) (id i : Nat) : Service :=
  match s.streams[id]? with
  | none => s
  | some o =>
    match o.observers[i]? with
    | none => s
    | some ob =>
      if ob.closed then s
      else refCountUnsubscribe s id
        { o with observers := o.observers.set i { ob with closed := true } }

/-- The text of the error sent through `rejected_1`. -/
def rejectedMessage (topic : Str) : Str :=
  "subscription for '".toList ++ topic ++ "' rejected!".toList

/-- `rejected_1.error(e)` of observable `id`. -/
def rejectedError (s : Service) (id : Nat) (e : Str) : Service :=
  match s.streams[id]? with
  | none => s
  | some o =>
    if o.connection then
      teardownResource
        (s.put id (failSubject
          { o with rejectedError := some e, refCount := 0, connection := false } e))
        o.filterString
    else s.put id { o with rejectedError := some e }

/-- The body of `granted.forEach` in the subscribe callback of observable `id`,
whose captured filter is `filterString`. -/
def subackGranted (s : Service) (id : Nat) (filterString : Str) (g : Granted) : Service :=
  let s1 : Service :=
    if g.qos = 128 then
      rejectedError
        { s with observables := deleteProp s.observables g.topic,
                 calls := s.calls ++ [.unsubscribe g.topic] }
        id (rejectedMessage g.topic)
    else s
  { s1 with emitted := s1.emitted ++ [.onSuback filterString (decide (g.qos ≠ 128))] }

/-- The subscribe callback of observable `id`, called with `granted`
(`none` for `undefined`). -/
def subscribeCallback (s : Service) (id : Nat) (granted : Option (List Granted)) : Service :=
  match s.streams[id]?, granted with
  | some o, some gs => gs.foldl (fun s' g => subackGranted s' id o.filterString g) s
  | _, _ => s

/-- A new observable as `_generalObserve` creates it. -/
def newObservable (filterString : Str) (publishFn : PublishFn) (opts : Opts) : MqttObservable :=
  { filterString := filterString, opts := opts, publishFn := publishFn,
    rejectedError := none, subjectError := none, buffer := none,
    refCount := 0, connection := false, observers := [] }

/-- `MqttService.prototype._generalObserve(filterString, publishFn, opts)`:
the new state and the value returned, or the error thrown. -/
def generalObserve (s : Service) (filterString : Str) (publishFn : PublishFn) (opts : Opts) :
    Except Str (Service × JsValue) :=
  if s.client = false then .error "mqtt client not connected".toList
  else
    let s1 : Service :=
      if getProp s.observables filterString = .undefined then
        { s with streams := s.streams ++ [newObservable filterString publishFn opts],
                 observables := setProp s.observables filterString s.streams.length }
      else s
    .ok (s1, getProp s1.observables filterString)

/-- `MqttService.prototype.observe(filterString, opts)`. -/
def observe (s : Service) (filterString : Str) (opts : Option Opts) :
    Except Str (Service × JsValue) :=
  generalObserve s filterString .publish (opts.getD { qos := 1 })

/-- `MqttService.prototype.observeRetained(filterString, opts)`. -/
def observeRetained (s : Service) (filterString : Str) (opts : Option Opts) :
    Except Str (Service × JsValue) :=
  generalObserve s filterString .publishReplay (opts.getD { qos := 1 })

/-- The subscribes made by `_handleOnConnect` and `_handleOnReconnect`. -/
def resubscribeAll (s : Service) : Service :=
  { s with calls := s.calls ++ (keys s.observables).map (fun f => .subscribe f none none) }

/-- `_handleOnConnect`. -/
def handleOnConnect (s : Service) : Service :=
  let s1 := resubscribeAll s
  { s1 with state := .CONNECTED, emitted := s1.emitted ++ [.onConnect] }

/-- `_handleOnReconnect`. -/
def handleOnReconnect (s : Service) : Service :=
  let s1 := resubscribeAll s
  { s1 with state := .CONNECTING, emitted := s1.emitted ++ [.onReconnect] }

/-- `_handleOnClose`. -/
def handleOnClose (s : Service) : Service :=
  { s with state := .CLOSED, emitted := s.emitted ++ [.onClose] }

/-- `_handleOnError`. -/
def handleOnError (s : Service) : Service :=
  { s with emitted := s.emitted ++ [.onError] }

/-- The predicate given to `filter`, as a boolean. -/
def accepts (filterString : Str) (p : Packet) : Bool :=
  filterMatchesTopic filterString p.topic == some true

/-- `this.messages.next(packet)` as seen by one observable: if its source is
subscribed and `filter` lets the packet through, the multicast subject gets
it, keeps it when it is a `ReplaySubject(1)`, and sends it to its subscribers. -/
def deliver (p : Packet) (o : MqttObservable) : MqttObservable :=
  if o.connection ∧ o.subjectError = none ∧ accepts o.filterString p = true then
    { o with buffer := (match o.publishFn with
                        | .publishReplay => some p
                        | .publish => o.buffer),
             observers := o.observers.map (fun ob =>
               if ob.closed then ob else { ob with received := ob.received ++ [.next p] }) }
  else o

/-- `_handleOnMessage(topic, msg, packet)`. -/
def handleOnMessage (s : Service) (p : Packet) : Service :=
  let s1 : Service := { s with emitted := s.emitted ++ [.onMessage p] }
  if p.cmd = "publish".toList then { s1 with streams := s1.streams.map (deliver p) } else s1

/-- What can happen to the service: calls of the application and events of
the transport client. -/
inductive Event where
  | observe (filterString : Str) (opts : Option Opts)
  | observeRetained (filterString : Str) (opts : Option Opts)
  | attach (id : Nat)
  | detach (id i : Nat)
  | connect
  | reconnect
  | close
  | error
  | message (p : Packet)
  | suback (id : Nat) (granted : Option (List Granted))
deriving DecidableEq, Repr

/-- The state after a call that may throw: unchanged when it throws. -/
def stateAfter (s : Service) (r : Except Str (Service × JsValue)) : Service :=
  match r with
  | .ok (s1, _) => s1
  | .error _ => s

/-- One event. The client calls a subscribe callback once, so an
acknowledgment is taken only for a callback that is still pending. -/
def step (s : Service) : Event → Service
  | .observe f opts => stateAfter s (observe s f opts)
  | .observeRetained f opts => stateAfter s (observeRetained s f opts)
  | .attach id => attach s id
  | .detach id i => detach s id i
  | .connect => handleOnConnect s
  | .reconnect => handleOnReconnect s
  | .close => handleOnClose s
  | .error => handleOnError s
  | .message p => handleOnMessage s p
  | .suback id granted =>
    if id ∈ s.pending then subscribeCallback { s with pending := s.pending.erase id } id granted
    else s

/-- The events of a list, in order. -/
def run (s : Service) (es : List Event) : Service :=
  es.foldl step s

/-- The service after construction with a client: nothing observed yet. -/
def init : Service :=
  { client := true, observables := [], streams := [], calls := [], pending := [],
    state := .CONNECTING, emitted := [] }

/-- The states the service can be in. -/
def Reachable (s : Service) : Prop :=
  ∃ es, run init es = s

/-- The fields of one observable agree with each other: `_refCount` counts the
subscribers still subscribed, there is a connection exactly while there are
such subscribers, a failed subject or a failed `rejected_1` has no connection,
a plain `Subject` keeps no event, and the filter is a name that the registry
object does not inherit. -/
def StreamOk (o : MqttObservable) : Prop :=
  o.refCount = openCount o.observers ∧
  (o.connection = true ↔ 0 < o.refCount) ∧
  (o.subjectError ≠ none → o.connection = false) ∧
  (o.connection = true → o.rejectedError = none) ∧
  (o.publishFn = .publish → o.buffer = none) ∧
  o.filterString ∉ objectPrototypeKeys

/-- The invariant of the service: it has a client, every observable is
coherent, and every own property of the registry names an existing observable
created for that filter, with no key twice. -/
def Consistent (s : Service) : Prop :=
  s.client = true ∧
  (∀ (id : Nat) (o : MqttObservable), s.streams[id]? = some o → StreamOk o) ∧
  (keys s.observables).Nodup ∧
  (∀ (k : Str) (id : Nat), lookupOwn s.observables k = some id →
    ∃ o, s.streams[id]? = some o ∧ o.filterString = k)

/-- The observable `id`, created for filter `F`, has had `N` subscribers of
which exactly those at the positions in `done` have unsubscribed; `base` and
`reg` are the calls and the registry as they were before any of them did. -/
def Released (s : Service) (id : Nat) (F : Str) (N : Nat) (done : List Nat)
    (base : List ClientCall) (reg : List (Str × Nat)) : Prop :=
  ∃ o, s.streams[id]? = some o ∧ o.filterString = F ∧ o.observers.length = N ∧
    (∀ (i : Nat) (ob : Observer), o.observers[i]? = some ob → (ob.closed = true ↔ i ∈ done)) ∧
    o.refCount = N - done.length ∧
    (o.connection = true ↔ done.length < N) ∧
    s.calls = base ++ (if done.length = N then [.unsubscribe F] else []) ∧
    s.observables = (if done.length = N then deleteProp reg F else reg)

/-- The observable `id`, created for filter `F`, is connected and has `n`
subscribers, all still subscribed. -/
def Attached (s : Service) (id : Nat) (F : Str) (n : Nat)
    (calls : List ClientCall) (reg : List (Str × Nat)) : Prop :=
  ∃ o, s.streams[id]? = some o ∧ o.filterString = F ∧ o.subjectError = none ∧
    o.connection = true ∧ o.refCount = n ∧ o.observers.length = n ∧
    (∀ ob ∈ o.observers, ob.closed = false) ∧
    s.calls = calls ∧ s.observables = reg

/-- The second observable has the filter, the multicast subject and the
buffered event of the first. -/
def SameSubject (o o' : MqttObservable) : Prop :=
  o'.filterString = o.filterString ∧ o'.publishFn = o.publishFn ∧ o'.buffer = o.buffer

/-- Every observable of the first state is still there in the second, at the
same index, with the same filter, multicast subject and buffered event. -/
def Frame (s s' : Service) : Prop :=
  ∀ (id : Nat) (o : MqttObservable), s.streams[id]? = some o →
    ∃ o', s'.streams[id]? = some o' ∧ SameSubject o o'

/-! ## Theorems -/


/-! ### Facts about `split`, `pop` and `matchLoop` -/

theorem split_ne_nil (sep : Char) (s : Str) : split sep s ≠ [] := by
  cases s with
  | nil => simp [split]
  | cons c cs =>
    simp only [split]
    split
    · simp
    · split <;> simp

theorem joinLevels_split (s : Str) : joinLevels (split '/' s) = s := by
  induction s with
  | nil => simp [split, joinLevels]
  | cons c cs ih =>
    simp only [split]
    split
    · rename_i h
      have hne := split_ne_nil '/' cs
      cases hs : split '/' cs with
      | nil => exact absurd hs hne
      | cons l ls =>
        rw [hs] at ih
        simp [joinLevels, ih, h]
    · cases hs : split '/' cs with
      | nil => exact absurd hs (split_ne_nil '/' cs)
      | cons l ls =>
        rw [hs] at ih
        cases ls with
        | nil => simpa [joinLevels] using ih
        | cons l' ls' =>
          simp only [joinLevels] at ih ⊢
          simp [ih]

theorem split_injective (s t : Str) (h : split '/' s = split '/' t) : s = t := by
  rw [← joinLevels_split s, ← joinLevels_split t, h]

theorem split_no_sep (l : Str) (h : '/' ∉ l) : split '/' l = [l] := by
  induction l with
  | nil => simp [split]
  | cons c cs ih =>
    simp only [List.mem_cons, not_or] at h
    have hc : c ≠ '/' := fun e => h.1 e.symm
    simp [split, hc, ih h.2]

theorem split_append_sep (l s : Str) (h : '/' ∉ l) :
    split '/' (l ++ '/' :: s) = l :: split '/' s := by
  induction l with
  | nil => simp [split]
  | cons c cs ih =>
    simp only [List.mem_cons, not_or] at h
    have hc : c ≠ '/' := fun e => h.1 e.symm
    simp [split, hc, ih h.2]

theorem split_joinLevels (ls : List Str) (hne : ls ≠ []) (h : ∀ l ∈ ls, '/' ∉ l) :
    split '/' (joinLevels ls) = ls := by
  induction ls with
  | nil => exact absurd rfl hne
  | cons l ls ih =>
    cases ls with
    | nil => simpa [joinLevels] using split_no_sep l (h l (by simp))
    | cons l' ls' =>
      simp only [joinLevels]
      rw [split_append_sep l _ (h l (by simp))]
      rw [ih (by simp) (fun x hx => h x (List.mem_cons_of_mem _ hx))]

theorem pop_reverse_cons {α : Type} (x : α) (xs : List α) :
    pop (x :: xs).reverse = (some x, xs.reverse) := by
  simp [pop]

theorem pop_reverse_nil {α : Type} : pop ([] : List α).reverse = (none, []) := by
  simp [pop]

theorem matchLoop_reverse (n : Nat) (fs ts : List Str) (h : fs.length < n) :
    matchLoop n fs.reverse ts.reverse = some (matchLevels fs ts) := by
  induction n generalizing fs ts with
  | zero => omega
  | succ n ih =>
    cases fs with
    | nil =>
      cases ts with
      | nil => simp [matchLoop, pop, matchLevels]
      | cons t ts => simp [matchLoop, pop, matchLevels]
    | cons f fs =>
      have hlen : fs.length < n := by simp at h; omega
      cases ts with
      | nil =>
        simp only [matchLoop, pop_reverse_cons, pop_reverse_nil, matchLevels, truthy]
        by_cases h1 : f = ['#']
        · simp [h1]
        · by_cases h2 : f = ['+'] <;> simp [h1, h2]
      | cons t ts =>
        simp only [matchLoop, pop_reverse_cons, matchLevels]
        by_cases h1 : f = ['#']
        · simp [h1]
        · by_cases h2 : f = ['+']
          · cases t with
            | nil => simp [h2, truthy]
            | cons c cs => simp [h2, truthy, ih fs ts hlen]
          · by_cases h3 : f = t
            · subst h3
              simp [h1, h2, ih fs ts hlen]
            · simp [h1, h2, h3]

/-- The matcher always returns, and its result is the guard on a leading `#`
against a leading `$` followed by the level-by-level comparison. -/
theorem filterMatchesTopic_eq (filter topic : Str) :
    filterMatchesTopic filter topic =
      some (!decide (filter.head? = some '#' ∧ topic.head? = some '$') &&
        matchLevels (split '/' filter) (split '/' topic)) := by
  unfold filterMatchesTopic
  split
  · rename_i h
    simp [h]
  · rename_i h
    simp only [List.length_reverse]
    rw [matchLoop_reverse _ _ _ (Nat.lt_succ_self _)]
    simp [h]

theorem matchLevels_literal (fs ts : List Str)
    (h : ∀ l ∈ fs, l ≠ ['+'] ∧ l ≠ ['#']) : matchLevels fs ts = true ↔ fs = ts := by
  induction fs generalizing ts with
  | nil => cases ts <;> simp [matchLevels]
  | cons f fs ih =>
    have hf := h f (by simp)
    have ih' := fun ts => ih ts (fun l hl => h l (List.mem_cons_of_mem _ hl))
    cases ts with
    | nil => simp [matchLevels, hf.1, hf.2]
    | cons t ts => simp [matchLevels, hf.1, hf.2, ih']

theorem matchLevels_literal_hash (ps ts : List Str)
    (h : ∀ l ∈ ps, l ≠ ['+'] ∧ l ≠ ['#']) :
    matchLevels (ps ++ [['#']]) ts = true ↔ ps <+: ts := by
  induction ps generalizing ts with
  | nil => simp [matchLevels]
  | cons f fs ih =>
    have hf := h f (by simp)
    have ih' := fun ts => ih ts (fun l hl => h l (List.mem_cons_of_mem _ hl))
    cases ts with
    | nil => simp [matchLevels, hf.1, hf.2]
    | cons t ts => simp [matchLevels, hf.1, hf.2, ih', List.cons_prefix_cons]

theorem split_head_of_ne (c : Char) (cs : Str) (h : c ≠ '/') :
    ∃ l ls, split '/' (c :: cs) = (c :: l) :: ls := by
  simp only [split, h, if_false]
  cases hs : split '/' cs with
  | nil => exact ⟨[], [], rfl⟩
  | cons l ls => exact ⟨l, ls, rfl⟩

theorem joinLevels_head (p : Str) (ps : List Str) (hp : '/' ∉ p) (hne : ps ≠ [])
    (c : Char) (hc : c ≠ '/') (h : (joinLevels (p :: ps)).head? = some c) :
    p.head? = some c := by
  cases ps with
  | nil => exact absurd rfl hne
  | cons q qs =>
    cases p with
    | nil => simp [joinLevels] at h; exact absurd h.symm hc
    | cons a as => simpa [joinLevels] using h

/-- C3: for a filter none of whose levels is `+` or `#`, the matcher answers
true exactly when filter and topic are the same string, that is, when they
have the same levels. -/
theorem filterMatchesTopic_literal (F T : Str)
    (h : ∀ l ∈ split '/' F, l ≠ ['+'] ∧ l ≠ ['#']) :
    (filterMatchesTopic F T = some true ↔ F = T) ∧
      (F = T ↔ split '/' F = split '/' T) := by
  have h2 : F = T ↔ split '/' F = split '/' T :=
    ⟨fun e => by rw [e], split_injective F T⟩
  refine ⟨?_, h2⟩
  rw [filterMatchesTopic_eq, h2, ← matchLevels_literal _ _ h]
  constructor
  · intro hm
    simp only [Option.some.injEq, Bool.and_eq_true] at hm
    exact hm.2
  · intro hm
    have e : F = T := h2.mpr ((matchLevels_literal _ _ h).mp hm)
    subst e
    have : ¬ (F.head? = some '#' ∧ F.head? = some '$') := by
      rintro ⟨a, b⟩
      rw [a] at b
      exact absurd b (by decide)
    simp [this, hm]

theorem filterMatchesTopic_literal_witness :
    (filterMatchesTopic "a/b".toList "a/b".toList = some true ↔ "a/b".toList = "a/b".toList) ∧
      ("a/b".toList = "a/b".toList ↔ split '/' "a/b".toList = split '/' "a/b".toList) :=
  filterMatchesTopic_literal "a/b".toList "a/b".toList (by decide)

/-- C4: for a filter made of literal levels `ps` followed by a final level
`#`, the matcher answers true exactly when `ps` are the first levels of the
topic and, when `ps` is empty, the topic does not begin with `$`. -/
theorem filterMatchesTopic_hash (ps : List Str) (T : Str)
    (h : ∀ p ∈ ps, p ≠ ['+'] ∧ p ≠ ['#'] ∧ '/' ∉ p) :
    filterMatchesTopic (joinLevels (ps ++ [['#']])) T = some true ↔
      (ps <+: split '/' T ∧ (ps = [] → T.head? ≠ some '$')) := by
  have hsplit : split '/' (joinLevels (ps ++ [['#']])) = ps ++ [['#']] := by
    apply split_joinLevels _ (by simp)
    intro l hl
    rcases List.mem_append.mp hl with hl | hl
    · exact (h l hl).2.2
    · simp only [List.mem_singleton] at hl
      subst hl
      decide
  have hlit : ∀ l ∈ ps, l ≠ ['+'] ∧ l ≠ ['#'] := fun l hl => ⟨(h l hl).1, (h l hl).2.1⟩
  rw [filterMatchesTopic_eq, hsplit]
  simp only [Option.some.injEq, Bool.and_eq_true, matchLevels_literal_hash ps _ hlit,
    Bool.not_eq_true', decide_eq_false_iff_not]
  cases ps with
  | nil =>
    simp [joinLevels]
  | cons p ps =>
    simp only [reduceCtorEq, false_implies, and_true, and_iff_right_iff_imp]
    rintro hpre ⟨hF, hT⟩
    have hp : p.head? = some '#' :=
      joinLevels_head p (ps ++ [['#']]) (h p (by simp)).2.2 (by simp) '#' (by decide) hF
    cases T with
    | nil => simp at hT
    | cons c cs =>
      simp only [List.head?_cons, Option.some.injEq] at hT
      subst hT
      obtain ⟨l, ls, hs⟩ := split_head_of_ne '$' cs (by decide)
      rw [hs] at hpre
      have := (List.cons_prefix_cons.mp hpre).1
      rw [this] at hp
      simp at hp

theorem filterMatchesTopic_hash_witness :
    filterMatchesTopic (joinLevels (["a".toList] ++ [['#']])) "a".toList = some true ↔
      (["a".toList] <+: split '/' "a".toList ∧
        (["a".toList] = [] → "a".toList.head? ≠ some '$')) :=
  filterMatchesTopic_hash ["a".toList] "a".toList (by decide)

/-- C5: with the filter `a/+/c` and the topic `a//c`, obtained from each other
by replacing the empty second level of the topic with `+`, the matcher answers
false: the test `t ? match() : false` takes the empty level for a missing one. -/
theorem filterMatchesTopic_plus_empty_level :
    filterMatchesTopic "a/+/c".toList "a//c".toList = some false := by
  decide

/-- C10: a filter whose first level is `+` is matched against a topic that
begins with `$`: `+/x` matches `$SYS/x`. -/
theorem filterMatchesTopic_plus_dollar :
    filterMatchesTopic "+/x".toList "$SYS/x".toList = some true := by
  decide

/-! ### The registry object -/

theorem lookupOwn_setProp_self (o : List (Str × Nat)) (k : Str) (v : Nat) :
    lookupOwn (setProp o k v) k = some v := by
  induction o with
  | nil => simp [setProp, lookupOwn]
  | cons e o ih =>
    obtain ⟨k', v'⟩ := e
    by_cases h : k' = k <;> simp [setProp, lookupOwn, h, ih]

theorem lookupOwn_setProp_other (o : List (Str × Nat)) (k k' : Str) (v : Nat) (h : k' ≠ k) :
    lookupOwn (setProp o k v) k' = lookupOwn o k' := by
  induction o with
  | nil => simp [setProp, lookupOwn, Ne.symm h]
  | cons e o ih =>
    obtain ⟨k₁, v₁⟩ := e
    by_cases h1 : k₁ = k
    · subst h1
      simp [setProp, lookupOwn, Ne.symm h]
    · by_cases h2 : k₁ = k'
      · subst h2
        simp [setProp, lookupOwn, h1]
      · simp [setProp, lookupOwn, h1, h2, ih]

theorem lookupOwn_deleteProp_self (o : List (Str × Nat)) (k : Str) :
    lookupOwn (deleteProp o k) k = none := by
  induction o with
  | nil => simp [deleteProp, lookupOwn]
  | cons e o ih =>
    obtain ⟨k', v'⟩ := e
    by_cases h : k' = k
    · simpa [deleteProp, List.filter_cons, h] using ih
    · simpa [deleteProp, List.filter_cons, h, lookupOwn] using ih

theorem lookupOwn_deleteProp_other (o : List (Str × Nat)) (k k' : Str) (h : k' ≠ k) :
    lookupOwn (deleteProp o k) k' = lookupOwn o k' := by
  induction o with
  | nil => simp [deleteProp, lookupOwn]
  | cons e o ih =>
    obtain ⟨k₁, v₁⟩ := e
    by_cases h1 : k₁ = k
    · subst h1
      simpa [deleteProp, List.filter_cons, lookupOwn, Ne.symm h] using ih
    · by_cases h2 : k₁ = k'
      · subst h2
        simp [deleteProp, List.filter_cons, h1, lookupOwn]
      · simpa [deleteProp, List.filter_cons, h1, h2, lookupOwn] using ih

theorem lookupOwn_eq_none_iff (o : List (Str × Nat)) (k : Str) :
    lookupOwn o k = none ↔ k ∉ keys o := by
  induction o with
  | nil => simp [lookupOwn, keys]
  | cons e o ih =>
    obtain ⟨k', v'⟩ := e
    by_cases h : k' = k
    · simp [lookupOwn, keys, h]
    · simp only [lookupOwn, h, if_false, ih]
      simp [keys, Ne.symm h]

theorem getProp_eq_undefined_iff (o : List (Str × Nat)) (k : Str) :
    getProp o k = .undefined ↔ lookupOwn o k = none ∧ k ∉ objectPrototypeKeys := by
  unfold getProp
  cases lookupOwn o k with
  | some id => simp
  | none => by_cases h : k ∈ objectPrototypeKeys <;> simp [h]

theorem getProp_of_lookupOwn (o : List (Str × Nat)) (k : Str) (id : Nat)
    (h : lookupOwn o k = some id) : getProp o k = .observable id := by
  simp [getProp, h]

theorem getProp_eq_observable_iff (o : List (Str × Nat)) (k : Str) (id : Nat) :
    getProp o k = .observable id ↔ lookupOwn o k = some id := by
  unfold getProp
  cases lookupOwn o k with
  | some id' => simp
  | none => by_cases h : k ∈ objectPrototypeKeys <;> simp [h]

theorem getProp_setProp_self (o : List (Str × Nat)) (k : Str) (v : Nat) :
    getProp (setProp o k v) k = .observable v := by
  simp [getProp, lookupOwn_setProp_self]

theorem getProp_deleteProp_self (o : List (Str × Nat)) (k : Str)
    (h : k ∉ objectPrototypeKeys) : getProp (deleteProp o k) k = .undefined := by
  simp [getProp, lookupOwn_deleteProp_self, h]

theorem keys_setProp_of_not_mem (o : List (Str × Nat)) (k : Str) (v : Nat) (h : k ∉ keys o) :
    keys (setProp o k v) = keys o ++ [k] := by
  induction o with
  | nil => simp [setProp, keys]
  | cons e o ih =>
    obtain ⟨k', v'⟩ := e
    have h1 : k' ≠ k := fun e => h (by simp [keys, e])
    have h2 : k ∉ keys o := fun hm => h (by simp only [keys, List.map_cons, List.mem_cons]; exact Or.inr hm)
    have := ih h2
    simp only [keys] at this ⊢
    simp [setProp, h1, this]

theorem keys_deleteProp (o : List (Str × Nat)) (k : Str) :
    keys (deleteProp o k) = (keys o).filter (fun x => decide (x ≠ k)) := by
  simp [keys, deleteProp, List.filter_map, Function.comp_def]

theorem nodup_keys_deleteProp (o : List (Str × Nat)) (k : Str) (h : (keys o).Nodup) :
    (keys (deleteProp o k)).Nodup := by
  rw [keys_deleteProp]
  exact h.filter _

/-! ### Reading and writing observables -/

@[simp] theorem put_client (s : Service) (id : Nat) (o : MqttObservable) :
    (s.put id o).client = s.client := rfl

@[simp] theorem put_observables (s : Service) (id : Nat) (o : MqttObservable) :
    (s.put id o).observables = s.observables := rfl

@[simp] theorem put_calls (s : Service) (id : Nat) (o : MqttObservable) :
    (s.put id o).calls = s.calls := rfl

@[simp] theorem put_pending (s : Service) (id : Nat) (o : MqttObservable) :
    (s.put id o).pending = s.pending := rfl

@[simp] theorem put_emitted (s : Service) (id : Nat) (o : MqttObservable) :
    (s.put id o).emitted = s.emitted := rfl

@[simp] theorem put_state (s : Service) (id : Nat) (o : MqttObservable) :
    (s.put id o).state = s.state := rfl

@[simp] theorem put_streams (s : Service) (id : Nat) (o : MqttObservable) :
    (s.put id o).streams = s.streams.set id o := rfl

theorem put_get_self (s : Service) (id : Nat) (o o' : MqttObservable)
    (h : s.streams[id]? = some o') : (s.put id o).streams[id]? = some o := by
  have hlt : id < s.streams.length := by
    rcases Nat.lt_or_ge id s.streams.length with h1 | h1
    · exact h1
    · rw [List.getElem?_eq_none h1] at h
      exact absurd h (by simp)
  simp [hlt]

theorem put_get_other (s : Service) (id id' : Nat) (o : MqttObservable) (h : id ≠ id') :
    (s.put id o).streams[id']? = s.streams[id']? := by
  simp [h]

@[simp] theorem teardownResource_streams (s : Service) (F : Str) :
    (teardownResource s F).streams = s.streams := rfl

@[simp] theorem teardownResource_calls (s : Service) (F : Str) :
    (teardownResource s F).calls = s.calls ++ [.unsubscribe F] := rfl

@[simp] theorem teardownResource_observables (s : Service) (F : Str) :
    (teardownResource s F).observables = deleteProp s.observables F := rfl

@[simp] theorem teardownResource_client (s : Service) (F : Str) :
    (teardownResource s F).client = s.client := rfl

@[simp] theorem teardownResource_pending (s : Service) (F : Str) :
    (teardownResource s F).pending = s.pending := rfl

@[simp] theorem teardownResource_emitted (s : Service) (F : Str) :
    (teardownResource s F).emitted = s.emitted := rfl

/-! ### Counting open subscribers -/

theorem openCount_append (obs : List Observer) (ob : Observer) :
    openCount (obs ++ [ob]) = openCount obs + (if ob.closed then 0 else 1) := by
  cases h : ob.closed <;> simp [openCount, List.filter_append, List.filter_cons, h]

theorem openCount_set_closed (obs : List Observer) (i : Nat) (ob : Observer)
    (h : obs[i]? = some ob) (hopen : ob.closed = false) :
    openCount (obs.set i { ob with closed := true }) + 1 = openCount obs := by
  induction obs generalizing i with
  | nil => simp at h
  | cons a as ih =>
    cases i with
    | zero =>
      simp only [List.getElem?_cons_zero, Option.some.injEq] at h
      subst h
      simp [openCount, List.filter_cons, hopen]
    | succ j =>
      simp only [List.getElem?_cons_succ] at h
      have := ih j h
      simp only [openCount, List.set_cons_succ, List.filter_cons] at this ⊢
      cases a.closed <;> simp <;> omega

theorem openCount_map (obs : List Observer) (f : Observer → Observer)
    (hf : ∀ ob, (f ob).closed = ob.closed) : openCount (obs.map f) = openCount obs := by
  induction obs with
  | nil => rfl
  | cons a as ih =>
    simp only [openCount, List.map_cons, List.filter_cons, hf] at ih ⊢
    cases a.closed <;> simp [ih]

theorem openCount_eq_zero_of_closed (obs : List Observer)
    (h : ∀ ob ∈ obs, ob.closed = true) : openCount obs = 0 := by
  simp only [openCount, List.length_eq_zero, List.filter_eq_nil_iff]
  intro ob hob
  simp [h ob hob]

theorem openCount_pos_of_open (obs : List Observer) (i : Nat) (ob : Observer)
    (h : obs[i]? = some ob) (hopen : ob.closed = false) : 0 < openCount obs := by
  have := openCount_set_closed obs i ob h hopen
  omega

theorem failSubject_observers_closed (o : MqttObservable) (e : Str) :
    ∀ ob ∈ (failSubject o e).observers, ob.closed = true := by
  intro ob hob
  simp only [failSubject, List.mem_map] at hob
  obtain ⟨a, _, rfl⟩ := hob
  cases h : a.closed <;> simp [h]

theorem openCount_failSubject (o : MqttObservable) (e : Str) :
    openCount (failSubject o e).observers = 0 :=
  openCount_eq_zero_of_closed _ (failSubject_observers_closed o e)

/-! ### The cases of `attach`, `detach` and `rejectedError` -/

theorem attach_of_failed (s : Service) (id : Nat) (o : MqttObservable) (e : Str)
    (ho : s.streams[id]? = some o) (hs : o.subjectError = some e) :
    attach s id = refCountUnsubscribe s id
      { o with refCount := o.refCount + 1,
               observers := o.observers ++ [⟨replayed o ++ [.error e], true⟩] } := by
  simp only [attach, ho, hs]

theorem attach_of_connected (s : Service) (id : Nat) (o : MqttObservable)
    (ho : s.streams[id]? = some o) (hs : o.subjectError = none) (hc : o.connection = true) :
    attach s id = s.put id
      { o with refCount := o.refCount + 1,
               observers := o.observers ++ [⟨replayed o, false⟩] } := by
  simp only [attach, ho, hs, hc, if_true]

theorem attach_of_idle (s : Service) (id : Nat) (o : MqttObservable)
    (ho : s.streams[id]? = some o) (hs : o.subjectError = none) (hc : o.connection = false) :
    attach s id = connectSource s id
      { o with refCount := o.refCount + 1,
               observers := o.observers ++ [⟨replayed o, false⟩] } := by
  simp only [attach, ho, hs, hc, Bool.false_eq_true, if_false]

theorem connectSource_of_rejected (s : Service) (id : Nat) (o : MqttObservable) (e : Str)
    (hr : o.rejectedError = some e) :
    connectSource s id o =
      teardownResource
        (({ s with calls := s.calls ++ [.subscribe o.filterString (some o.opts) (some id)],
                   pending := s.pending ++ [id] } : Service).put id
          (failSubject { o with refCount := 0, connection := false } e))
        o.filterString := by
  simp only [connectSource, hr]

theorem connectSource_of_ok (s : Service) (id : Nat) (o : MqttObservable)
    (hr : o.rejectedError = none) :
    connectSource s id o =
      ({ s with calls := s.calls ++ [.subscribe o.filterString (some o.opts) (some id)],
                pending := s.pending ++ [id] } : Service).put id
        { o with connection := true } := by
  simp only [connectSource, hr]

theorem detach_of_open (s : Service) (id i : Nat) (o : MqttObservable) (ob : Observer)
    (ho : s.streams[id]? = some o) (hob : o.observers[i]? = some ob)
    (hopen : ob.closed = false) :
    detach s id i = refCountUnsubscribe s id
      { o with observers := o.observers.set i { ob with closed := true } } := by
  simp only [detach, ho, hob, hopen, Bool.false_eq_true, if_false]

theorem detach_of_closed (s : Service) (id i : Nat) (o : MqttObservable) (ob : Observer)
    (ho : s.streams[id]? = some o) (hob : o.observers[i]? = some ob)
    (hclosed : ob.closed = true) : detach s id i = s := by
  simp only [detach, ho, hob, hclosed, if_true]

theorem refCountUnsubscribe_of_many (s : Service) (id : Nat) (o : MqttObservable)
    (h : 1 < o.refCount) :
    refCountUnsubscribe s id o = s.put id { o with refCount := o.refCount - 1 } := by
  have h0 : o.refCount ≠ 0 := by omega
  simp only [refCountUnsubscribe, h0, h, if_true, if_false]

theorem refCountUnsubscribe_of_last (s : Service) (id : Nat) (o : MqttObservable)
    (h : o.refCount = 1) (hc : o.connection = true) :
    refCountUnsubscribe s id o =
      teardownResource (s.put id { o with refCount := 0, connection := false })
        o.filterString := by
  simp [refCountUnsubscribe, h, hc, unsubscribeConnection]

theorem refCountUnsubscribe_of_idle (s : Service) (id : Nat) (o : MqttObservable)
    (h : o.refCount = 1) (hc : o.connection = false) :
    refCountUnsubscribe s id o = s.put id { o with refCount := 0 } := by
  simp [refCountUnsubscribe, h, hc]

theorem rejectedError_of_connected (s : Service) (id : Nat) (o : MqttObservable) (e : Str)
    (ho : s.streams[id]? = some o) (hc : o.connection = true) :
    rejectedError s id e =
      teardownResource
        (s.put id (failSubject
          { o with rejectedError := some e, refCount := 0, connection := false } e))
        o.filterString := by
  simp only [rejectedError, ho, hc, if_true]

theorem rejectedError_of_idle (s : Service) (id : Nat) (o : MqttObservable) (e : Str)
    (ho : s.streams[id]? = some o) (hc : o.connection = false) :
    rejectedError s id e = s.put id { o with rejectedError := some e } := by
  simp only [rejectedError, ho, hc, Bool.false_eq_true, if_false]

/-- In a coherent observable, no connection means no subscriber. -/
theorem StreamOk.refCount_eq_zero {o : MqttObservable} (h : StreamOk o)
    (hc : o.connection = false) : o.refCount = 0 := by
  rcases Nat.eq_zero_or_pos o.refCount with h0 | h0
  · exact h0
  · rw [h.2.1.mpr h0] at hc
    exact absurd hc (by simp)

/-! ### Closed forms of `attach` and `detach` -/

theorem attach_failed (s : Service) (id : Nat) (o : MqttObservable) (e : Str)
    (ho : s.streams[id]? = some o) (hs : o.subjectError = some e)
    (hc : o.connection = false) (hrc : o.refCount = 0) :
    attach s id = s.put id
      { o with refCount := 0,
               observers := o.observers ++ [⟨replayed o ++ [.error e], true⟩] } := by
  rw [attach_of_failed s id o e ho hs]
  simp [refCountUnsubscribe, hrc, hc]

theorem attach_idle_ok (s : Service) (id : Nat) (o : MqttObservable)
    (ho : s.streams[id]? = some o) (hs : o.subjectError = none)
    (hc : o.connection = false) (hr : o.rejectedError = none) :
    attach s id =
      ({ s with calls := s.calls ++ [.subscribe o.filterString (some o.opts) (some id)],
                pending := s.pending ++ [id] } : Service).put id
        { o with refCount := o.refCount + 1, connection := true,
                 observers := o.observers ++ [⟨replayed o, false⟩] } := by
  rw [attach_of_idle s id o ho hs hc]
  simp only [connectSource, hr]

theorem attach_idle_rejected (s : Service) (id : Nat) (o : MqttObservable) (e : Str)
    (ho : s.streams[id]? = some o) (hs : o.subjectError = none)
    (hc : o.connection = false) (hr : o.rejectedError = some e) :
    attach s id =
      teardownResource
        (({ s with calls := s.calls ++ [.subscribe o.filterString (some o.opts) (some id)],
                   pending := s.pending ++ [id] } : Service).put id
          (failSubject
            { o with refCount := 0, connection := false,
                     observers := o.observers ++ [⟨replayed o, false⟩] } e))
        o.filterString := by
  rw [attach_of_idle s id o ho hs hc]
  simp only [connectSource, hr]

theorem detach_many (s : Service) (id i : Nat) (o : MqttObservable) (ob : Observer)
    (ho : s.streams[id]? = some o) (hob : o.observers[i]? = some ob)
    (hopen : ob.closed = false) (h : 1 < o.refCount) :
    detach s id i = s.put id
      { o with refCount := o.refCount - 1,
               observers := o.observers.set i { ob with closed := true } } := by
  rw [detach_of_open s id i o ob ho hob hopen]
  have h0 : o.refCount ≠ 0 := by omega
  simp only [refCountUnsubscribe, h0, h, if_true, if_false]

theorem detach_last (s : Service) (id i : Nat) (o : MqttObservable) (ob : Observer)
    (ho : s.streams[id]? = some o) (hob : o.observers[i]? = some ob)
    (hopen : ob.closed = false) (h : o.refCount = 1) (hc : o.connection = true) :
    detach s id i =
      teardownResource
        (s.put id
          { o with refCount := 0, connection := false,
                   observers := o.observers.set i { ob with closed := true } })
        o.filterString := by
  rw [detach_of_open s id i o ob ho hob hopen]
  simp [refCountUnsubscribe, h, hc, unsubscribeConnection]

/-! ### The invariant -/

theorem Consistent.of_eq {s s' : Service} (h : Consistent s) (hc : s'.client = s.client)
    (hs : s'.streams = s.streams) (ho : s'.observables = s.observables) : Consistent s' := by
  unfold Consistent at h ⊢
  rw [hc, hs, ho]
  exact h

theorem Consistent.put {s : Service} (h : Consistent s) (id : Nat) (o o' : MqttObservable)
    (ho : s.streams[id]? = some o) (hok : StreamOk o')
    (hf : o'.filterString = o.filterString) : Consistent (s.put id o') := by
  obtain ⟨h1, h2, h3, h4⟩ := h
  refine ⟨h1, ?_, h3, ?_⟩
  · intro id' o'' hget
    by_cases e : id = id'
    · subst e
      rw [put_get_self s id o' o ho] at hget
      simp only [Option.some.injEq] at hget
      exact hget ▸ hok
    · rw [put_get_other s id id' o' e] at hget
      exact h2 id' o'' hget
  · intro k id' hl
    obtain ⟨o'', hget, hk⟩ := h4 k id' hl
    by_cases e : id = id'
    · subst e
      refine ⟨o', put_get_self s id o' o ho, ?_⟩
      rw [ho] at hget
      simp only [Option.some.injEq] at hget
      rw [hf, hget, hk]
    · exact ⟨o'', by rw [put_get_other s id id' o' e]; exact hget, hk⟩

theorem Consistent.deleteProp {s s' : Service} (h : Consistent s) (k : Str)
    (hc : s'.client = s.client) (hs : s'.streams = s.streams)
    (ho : s'.observables = deleteProp s.observables k) : Consistent s' := by
  obtain ⟨h1, h2, h3, h4⟩ := h
  refine ⟨hc ▸ h1, hs ▸ h2, ho ▸ nodup_keys_deleteProp _ _ h3, ?_⟩
  intro k' id hl
  rw [ho] at hl
  rw [hs]
  by_cases e : k' = k
  · subst e
    rw [lookupOwn_deleteProp_self] at hl
    exact absurd hl (by simp)
  · rw [lookupOwn_deleteProp_other _ _ _ e] at hl
    exact h4 k' id hl

theorem Consistent.teardown {s : Service} (h : Consistent s) (F : Str) :
    Consistent (teardownResource s F) :=
  h.deleteProp F rfl rfl rfl

theorem streamOk_failSubject (o : MqttObservable) (e : Str)
    (hr : o.refCount = 0) (hc : o.connection = false)
    (h5 : o.publishFn = .publish → o.buffer = none)
    (h6 : o.filterString ∉ objectPrototypeKeys) : StreamOk (failSubject o e) := by
  refine ⟨?_, ?_, ?_, ?_, h5, h6⟩
  · rw [openCount_failSubject]
    exact hr
  · simp [failSubject, hr, hc]
  · intro _
    exact hc
  · intro hc'
    simp [failSubject, hc] at hc'

theorem consistent_attach {s : Service} (h : Consistent s) (id : Nat) :
    Consistent (attach s id) := by
  cases ho : s.streams[id]? with
  | none => simpa [attach, ho] using h
  | some o =>
    obtain ⟨a1, a2, a3, a4, a5, a6⟩ := h.2.1 id o ho
    cases hs : o.subjectError with
    | some e =>
      have hconn : o.connection = false := a3 (by simp [hs])
      have hrc : o.refCount = 0 := (h.2.1 id o ho).refCount_eq_zero hconn
      rw [attach_failed s id o e ho hs hconn hrc]
      refine h.put id o _ ho ⟨?_, ?_, ?_, ?_, a5, a6⟩ rfl
      · simp [openCount_append, ← a1, hrc]
      · simp [hconn]
      · intro _
        exact hconn
      · intro hc
        simp [hconn] at hc
    | none =>
      cases hc : o.connection with
      | true =>
        rw [attach_of_connected s id o ho hs hc]
        refine h.put id o _ ho ⟨?_, ?_, ?_, ?_, a5, a6⟩ rfl
        · simp [openCount_append, a1]
        · simp [hc]
        · intro hne
          exact absurd hs hne
        · intro _
          exact a4 hc
      | false =>
        have hrc : o.refCount = 0 := (h.2.1 id o ho).refCount_eq_zero hc
        have hbase : Consistent ({ s with
            calls := s.calls ++ [.subscribe o.filterString (some o.opts) (some id)],
            pending := s.pending ++ [id] } : Service) := h.of_eq rfl rfl rfl
        cases hr : o.rejectedError with
        | some e =>
          rw [attach_idle_rejected s id o e ho hs hc hr]
          apply Consistent.teardown
          exact hbase.put id o _ ho (streamOk_failSubject _ e rfl rfl a5 a6) rfl
        | none =>
          rw [attach_idle_ok s id o ho hs hc hr]
          refine hbase.put id o _ ho ⟨?_, ?_, ?_, ?_, a5, a6⟩ rfl
          · simp [openCount_append, a1]
          · simp
          · intro hne
            exact absurd hs hne
          · intro _
            exact hr

theorem consistent_detach {s : Service} (h : Consistent s) (id i : Nat) :
    Consistent (detach s id i) := by
  cases ho : s.streams[id]? with
  | none => simpa [detach, ho] using h
  | some o =>
    cases hob : o.observers[i]? with
    | none => simpa [detach, ho, hob] using h
    | some ob =>
      cases hcl : ob.closed with
      | true => rw [detach_of_closed s id i o ob ho hob hcl]; exact h
      | false =>
        obtain ⟨a1, a2, a3, a4, a5, a6⟩ := h.2.1 id o ho
        have hcount := openCount_set_closed o.observers i ob hob hcl
        have hpos : 0 < o.refCount := by omega
        have hconn : o.connection = true := a2.mpr hpos
        rcases Nat.lt_or_ge 1 o.refCount with hm | hm
        · rw [detach_many s id i o ob ho hob hcl hm]
          refine h.put id o _ ho ⟨?_, ?_, ?_, ?_, a5, a6⟩ rfl
          · simp only; omega
          · simp only [hconn, true_iff]; omega
          · exact a3
          · exact a4
        · have h1 : o.refCount = 1 := by omega
          rw [detach_last s id i o ob ho hob hcl h1 hconn]
          apply Consistent.teardown
          refine h.put id o _ ho ⟨?_, ?_, ?_, ?_, a5, a6⟩ rfl
          · simp only; omega
          · simp
          · intro _; rfl
          · intro hc; simp at hc

theorem streamOk_deliver (p : Packet) (o : MqttObservable) (h : StreamOk o) :
    StreamOk (deliver p o) := by
  unfold deliver
  split
  · obtain ⟨a1, a2, a3, a4, a5, a6⟩ := h
    refine ⟨?_, a2, a3, a4, ?_, a6⟩
    · simp only
      rw [openCount_map _ _ (by intro ob; cases h : ob.closed <;> simp [h])]
      exact a1
    · intro hp
      simp only at hp ⊢
      simp only [hp]
      exact a5 hp
  · exact h

theorem deliver_filterString (p : Packet) (o : MqttObservable) :
    (deliver p o).filterString = o.filterString := by
  unfold deliver
  split <;> rfl

theorem consistent_handleOnMessage {s : Service} (h : Consistent s) (p : Packet) :
    Consistent (handleOnMessage s p) := by
  unfold handleOnMessage
  split
  · obtain ⟨h1, h2, h3, h4⟩ := h
    refine ⟨h1, ?_, h3, ?_⟩
    · intro id o hget
      simp only [List.getElem?_map, Option.map_eq_some'] at hget
      obtain ⟨o', ho', rfl⟩ := hget
      exact streamOk_deliver p o' (h2 id o' ho')
    · intro k id hl
      obtain ⟨o, ho, hk⟩ := h4 k id hl
      exact ⟨deliver p o, by simp [ho], by rw [deliver_filterString, hk]⟩
  · exact h.of_eq rfl rfl rfl

theorem consistent_rejectedError {s : Service} (h : Consistent s) (id : Nat) (e : Str) :
    Consistent (rejectedError s id e) := by
  cases ho : s.streams[id]? with
  | none => simpa [rejectedError, ho] using h
  | some o =>
    obtain ⟨a1, a2, a3, a4, a5, a6⟩ := h.2.1 id o ho
    cases hc : o.connection with
    | true =>
      rw [rejectedError_of_connected s id o e ho hc]
      apply Consistent.teardown
      exact h.put id o _ ho (streamOk_failSubject _ e rfl rfl a5 a6) rfl
    | false =>
      rw [rejectedError_of_idle s id o e ho hc]
      have hrc : o.refCount = 0 := (h.2.1 id o ho).refCount_eq_zero hc
      refine h.put id o _ ho ⟨a1, a2, a3, ?_, a5, a6⟩ rfl
      intro hc'
      rw [hc] at hc'
      exact absurd hc' (by simp)

theorem consistent_subackGranted {s : Service} (h : Consistent s) (id : Nat) (F : Str)
    (g : Granted) : Consistent (subackGranted s id F g) := by
  unfold subackGranted
  by_cases hq : g.qos = 128
  · simp only [hq, if_true]
    have h1 : Consistent
        ({ s with observables := deleteProp s.observables g.topic,
                  calls := s.calls ++ [.unsubscribe g.topic] } : Service) :=
      h.deleteProp g.topic rfl rfl rfl
    exact (consistent_rejectedError h1 id _).of_eq rfl rfl rfl
  · simp only [hq, if_false]
    exact h.of_eq rfl rfl rfl

theorem consistent_foldl_subackGranted {s : Service} (h : Consistent s) (id : Nat) (F : Str)
    (gs : List Granted) :
    Consistent (gs.foldl (fun s' g => subackGranted s' id F g) s) := by
  induction gs generalizing s with
  | nil => exact h
  | cons g gs ih => exact ih (consistent_subackGranted h id F g)

theorem consistent_subscribeCallback {s : Service} (h : Consistent s) (id : Nat)
    (granted : Option (List Granted)) : Consistent (subscribeCallback s id granted) := by
  unfold subscribeCallback
  split
  · exact consistent_foldl_subackGranted h id _ _
  · exact h

theorem generalObserve_of_undefined (s : Service) (F : Str) (fn : PublishFn) (opts : Opts)
    (hc : s.client = true) (hF : getProp s.observables F = .undefined) :
    generalObserve s F fn opts =
      .ok ({ s with streams := s.streams ++ [newObservable F fn opts],
                    observables := setProp s.observables F s.streams.length },
           .observable s.streams.length) := by
  simp [generalObserve, hc, hF, getProp_setProp_self]

theorem generalObserve_of_defined (s : Service) (F : Str) (fn : PublishFn) (opts : Opts)
    (hc : s.client = true) (hF : getProp s.observables F ≠ .undefined) :
    generalObserve s F fn opts = .ok (s, getProp s.observables F) := by
  simp [generalObserve, hc, hF]

theorem consistent_generalObserve {s : Service} (h : Consistent s) (F : Str) (fn : PublishFn)
    (opts : Opts) : Consistent (stateAfter s (generalObserve s F fn opts)) := by
  by_cases hF : getProp s.observables F = .undefined
  · rw [generalObserve_of_undefined s F fn opts h.1 hF]
    simp only [stateAfter]
    obtain ⟨h1, h2, h3, h4⟩ := h
    obtain ⟨hl, hp⟩ := (getProp_eq_undefined_iff _ _).mp hF
    have hk : F ∉ keys s.observables := (lookupOwn_eq_none_iff _ _).mp hl
    refine ⟨h1, ?_, ?_, ?_⟩
    · intro id o hget
      simp only at hget
      rcases Nat.lt_or_ge id s.streams.length with hlt | hge
      · rw [List.getElem?_append_left hlt] at hget
        exact h2 id o hget
      · rw [List.getElem?_append_right hge] at hget
        cases hi : id - s.streams.length with
        | zero =>
          rw [hi] at hget
          simp only [List.getElem?_cons_zero, Option.some.injEq] at hget
          subst hget
          exact ⟨rfl, by simp [newObservable], by simp [newObservable],
            by simp [newObservable], by simp [newObservable], hp⟩
        | succ j =>
          rw [hi] at hget
          simp at hget
    · simp only
      rw [keys_setProp_of_not_mem _ _ _ hk]
      exact List.Nodup.append h3 (by simp) (by simpa using hk)
    · intro k id hlk
      simp only at hlk ⊢
      by_cases e : k = F
      · subst e
        rw [lookupOwn_setProp_self] at hlk
        simp only [Option.some.injEq] at hlk
        subst hlk
        exact ⟨newObservable k fn opts, by simp, rfl⟩
      · rw [lookupOwn_setProp_other _ _ _ _ e] at hlk
        obtain ⟨o, ho, hk'⟩ := h4 k id hlk
        have hlt : id < s.streams.length := by
          rcases Nat.lt_or_ge id s.streams.length with h1 | h1
          · exact h1
          · rw [List.getElem?_eq_none h1] at ho
            exact absurd ho (by simp)
        exact ⟨o, by rw [List.getElem?_append_left hlt]; exact ho, hk'⟩
  · rw [generalObserve_of_defined s F fn opts h.1 hF]
    exact h

theorem consistent_step {s : Service} (h : Consistent s) (e : Event) :
    Consistent (step s e) := by
  cases e with
  | observe f opts => exact consistent_generalObserve h f _ _
  | observeRetained f opts => exact consistent_generalObserve h f _ _
  | attach id => exact consistent_attach h id
  | detach id i => exact consistent_detach h id i
  | connect => exact h.of_eq rfl rfl rfl
  | reconnect => exact h.of_eq rfl rfl rfl
  | close => exact h.of_eq rfl rfl rfl
  | error => exact h.of_eq rfl rfl rfl
  | message p => exact consistent_handleOnMessage h p
  | suback id granted =>
    simp only [step]
    split
    · have h1 : Consistent ({ s with pending := s.pending.erase id } : Service) :=
        h.of_eq rfl rfl rfl
      exact consistent_subscribeCallback h1 id granted
    · exact h

theorem consistent_run {s : Service} (h : Consistent s) (es : List Event) :
    Consistent (run s es) := by
  induction es generalizing s with
  | nil => exact h
  | cons e es ih => exact ih (consistent_step h e)

theorem consistent_init : Consistent init := by
  refine ⟨rfl, ?_, ?_, ?_⟩
  · intro id o h
    simp [init] at h
  · simp [init, keys]
  · intro k id h
    simp [init, lookupOwn] at h

/-- Every reachable state satisfies the invariant. -/
theorem Reachable.consistent {s : Service} (h : Reachable s) : Consistent s := by
  obtain ⟨es, rfl⟩ := h
  exact consistent_run consistent_init es

theorem Reachable.step {s : Service} (h : Reachable s) (e : Event) : Reachable (step s e) := by
  obtain ⟨es, rfl⟩ := h
  exact ⟨es ++ [e], by simp [run, List.foldl_append]⟩

theorem Reachable.run {s : Service} (h : Reachable s) (es : List Event) :
    Reachable (run s es) := by
  obtain ⟨es0, rfl⟩ := h
  exact ⟨es0 ++ es, by simp [MqttService.run, List.foldl_append]⟩

/-! ### One subscribe and one unsubscribe per filter -/

theorem run_append (s : Service) (es es' : List Event) :
    run s (es ++ es') = run (run s es) es' := by
  simp [run, List.foldl_append]

theorem run_cons (s : Service) (e : Event) (es : List Event) :
    run s (e :: es) = run (step s e) es := rfl

theorem run_nil (s : Service) : run s [] = s := rfl

theorem attached_first (s : Service) (id : Nat) (F : Str) (fn : PublishFn) (opts : Opts)
    (ho : s.streams[id]? = some (newObservable F fn opts)) :
    Attached (attach s id) id F 1
      (s.calls ++ [.subscribe F (some opts) (some id)]) s.observables := by
  rw [attach_idle_ok s id _ ho rfl rfl rfl]
  refine ⟨_, put_get_self _ id _ _ ho, rfl, rfl, rfl, rfl, ?_, ?_, rfl, rfl⟩
  · simp [newObservable]
  · simp [newObservable]

theorem attached_next (s : Service) (id : Nat) (F : Str) (n : Nat)
    (calls : List ClientCall) (reg : List (Str × Nat)) (h : Attached s id F n calls reg) :
    Attached (attach s id) id F (n + 1) calls reg := by
  obtain ⟨o, ho, hF, hs, hc, hrc, hlen, hopen, hcalls, hreg⟩ := h
  rw [attach_of_connected s id o ho hs hc]
  refine ⟨_, put_get_self _ id _ _ ho, hF, hs, hc, ?_, ?_, ?_, hcalls, hreg⟩
  · simp [hrc]
  · simp [hlen]
  · intro ob hob
    simp only [List.mem_append, List.mem_singleton] at hob
    rcases hob with hob | hob
    · exact hopen ob hob
    · rw [hob]

theorem attached_many (s : Service) (id : Nat) (F : Str) (fn : PublishFn) (opts : Opts)
    (ho : s.streams[id]? = some (newObservable F fn opts)) (n : Nat) :
    Attached (run s (List.replicate (n + 1) (.attach id))) id F (n + 1)
      (s.calls ++ [.subscribe F (some opts) (some id)]) s.observables := by
  induction n with
  | zero => exact attached_first s id F fn opts ho
  | succ n ih =>
    rw [List.replicate_succ', run_append]
    exact attached_next _ id F (n + 1) _ _ ih

theorem released_of_attached (s : Service) (id : Nat) (F : Str) (N : Nat)
    (calls : List ClientCall) (reg : List (Str × Nat)) (hN : 0 < N)
    (h : Attached s id F N calls reg) : Released s id F N [] calls reg := by
  obtain ⟨o, ho, hF, hs, hc, hrc, hlen, hopen, hcalls, hreg⟩ := h
  have hne : ¬ (0 = N) := by omega
  refine ⟨o, ho, hF, hlen, ?_, by simpa using hrc, by simp [hc, hN], ?_, ?_⟩
  · intro i ob hob
    have := hopen ob (List.getElem?_mem hob)
    simp [this]
  · simp [hcalls, hne]
  · simp [hreg, hne]

theorem released_detach (s : Service) (id : Nat) (F : Str) (N : Nat) (done : List Nat)
    (base : List ClientCall) (reg : List (Str × Nat)) (i : Nat)
    (h : Released s id F N done base reg) (hi : i < N) (hnew : i ∉ done)
    (hroom : done.length < N) :
    Released (detach s id i) id F N (i :: done) base reg := by
  obtain ⟨o, ho, hF, hlen, hcl, hrc, hconn, hcalls, hreg⟩ := h
  have hlt : i < o.observers.length := by omega
  have hob : o.observers[i]? = some o.observers[i] := List.getElem?_eq_getElem hlt
  have hopen : (o.observers[i]).closed = false := by
    cases hc : (o.observers[i]).closed with
    | false => rfl
    | true => exact absurd ((hcl i _ hob).mp hc) hnew
  have hc : o.connection = true := hconn.mpr hroom
  have hne : done.length ≠ N := by omega
  have hclosed : ∀ (j : Nat) (ob : Observer),
      (o.observers.set i { o.observers[i] with closed := true })[j]? = some ob →
      (ob.closed = true ↔ j ∈ i :: done) := by
    intro j ob hj
    by_cases e : i = j
    · subst e
      rw [List.getElem?_set_self hlt] at hj
      simp only [Option.some.injEq] at hj
      subst hj
      simp
    · rw [List.getElem?_set_ne e] at hj
      rw [hcl j ob hj]
      simp [Ne.symm e]
  rcases Nat.lt_or_ge 1 o.refCount with hm | hm
  · rw [detach_many s id i o _ ho hob hopen hm]
    have hne' : done.length + 1 ≠ N := by omega
    refine ⟨_, put_get_self _ id _ _ ho, hF, by simp [hlen], hclosed, ?_, ?_, ?_, ?_⟩
    · simp only [List.length_cons]; omega
    · simp only [hc, List.length_cons, true_iff]; omega
    · simp [hcalls, hne, hne']
    · simp [hreg, hne, hne']
  · have h1 : o.refCount = 1 := by omega
    have hfull : done.length + 1 = N := by omega
    rw [detach_last s id i o _ ho hob hopen h1 hc]
    have hget := put_get_self s id
      { o with refCount := 0, connection := false,
               observers := o.observers.set i { o.observers[i] with closed := true } } o ho
    refine ⟨_, hget, hF, by simp [hlen], hclosed, ?_, ?_, ?_, ?_⟩
    · simp only [List.length_cons]; omega
    · simp [hfull]
    · simp [hcalls, hne, hfull, hF]
    · simp [hreg, hne, hfull, hF]

theorem length_le_of_nodup_lt (l : List Nat) (N : Nat) (hnd : l.Nodup)
    (hlt : ∀ i ∈ l, i < N) : l.length ≤ N := by
  have hsub : l ⊆ List.range N := fun i hi => List.mem_range.mpr (hlt i hi)
  have := (List.subperm_of_subset hnd hsub).length_le
  simpa using this

theorem released_detach_all (id : Nat) (F : Str) (N : Nat)
    (base : List ClientCall) (reg : List (Str × Nat)) (ds : List Nat) :
    ∀ (s : Service) (done : List Nat), Released s id F N done base reg →
      (ds.reverse ++ done).Nodup → (∀ i ∈ ds.reverse ++ done, i < N) →
      Released (run s (ds.map (fun i => Event.detach id i))) id F N
        (ds.reverse ++ done) base reg := by
  induction ds with
  | nil => intro s done h _ _; simpa [run] using h
  | cons d ds ih =>
    intro s done h hnd hlt
    have e : (d :: ds).reverse ++ done = ds.reverse ++ (d :: done) := by simp
    rw [e] at hnd hlt ⊢
    have hd : (d :: done).Nodup := (List.nodup_append.mp hnd).2.1
    have hlt' : ∀ i ∈ d :: done, i < N := fun i hi => hlt i (List.mem_append_right _ hi)
    have hlen := length_le_of_nodup_lt (d :: done) N hd hlt'
    have hroom : done.length < N := by simpa using hlen
    have hstep := released_detach s id F N done base reg d h (hlt' d (by simp))
      (List.nodup_cons.mp hd).1 hroom
    simp only [List.map_cons, run_cons, step]
    exact ih _ _ hstep hnd hlt

/-- C1: the service has a client and its registry has no entry, yet for the
filter `constructor`, a name every object literal inherits from
`Object.prototype`, the test `!this.observables[filterString]` fails:
`observe` and `observeRetained` create nothing, leave the state as it is, with
no call on the client, and return the inherited value instead of a stream. -/
theorem observe_inherited_name :
    init.client = true ∧ keys init.observables = [] ∧
      lookupOwn init.observables "constructor".toList = none ∧
      observe init "constructor".toList none = .ok (init, .inherited) ∧
      observeRetained init "constructor".toList none = .ok (init, .inherited) ∧
      (stateAfter init (observe init "constructor".toList none)).streams = [] ∧
      (stateAfter init (observe init "constructor".toList none)).calls = [] :=
  ⟨rfl, rfl, rfl, rfl, rfl, rfl, rfl⟩

/-- The reference count of a new observable. From a service with a client
whose registry yields `undefined` for `F` (no entry of its own, and `F` not a
name inherited from `Object.prototype`),
`observe(F)` (or `observeRetained(F)`) returns a new observable; attaching `N ≥ 1`
observers to it makes exactly one call on the client, the subscribe for `F`;
detaching any of these observers, in any order (`ds`, without repetition), makes
no call and keeps the registry entry as long as fewer than `N` are detached,
and when the `N`th is detached exactly one call is added, the unsubscribe for
`F`, and `F` is no longer in the registry. -/
theorem subscribe_once_unsubscribe_last (s : Service) (F : Str) (retained : Bool)
    (opts : Option Opts) (N : Nat) (ds : List Nat)
    (hc : s.client = true) (hF : getProp s.observables F = .undefined) (hN : 1 ≤ N)
    (hnd : ds.Nodup) (hlt : ∀ i ∈ ds, i < N) :
    ∃ s1 id,
      (if retained then observeRetained s F opts else observe s F opts) =
        .ok (s1, .observable id) ∧
      s1.calls = s.calls ∧
      (∃ o, (run s1 (List.replicate N (.attach id))).streams[id]? = some o ∧
        o.observers.length = N ∧ ∀ ob ∈ o.observers, ob.closed = false) ∧
      (run s1 (List.replicate N (.attach id))).calls =
        s.calls ++ [.subscribe F (some (opts.getD { qos := 1 })) (some id)] ∧
      (run (run s1 (List.replicate N (.attach id)))
          (ds.map (fun i => Event.detach id i))).calls =
        s.calls ++ [.subscribe F (some (opts.getD { qos := 1 })) (some id)] ++
          (if ds.length = N then [.unsubscribe F] else []) ∧
      getProp (run (run s1 (List.replicate N (.attach id)))
          (ds.map (fun i => Event.detach id i))).observables F =
        (if ds.length = N then .undefined else .observable id) := by
  obtain ⟨n, rfl⟩ : ∃ n, N = n + 1 := ⟨N - 1, by omega⟩
  have hobs : ∀ fn, generalObserve s F fn (opts.getD { qos := 1 }) =
      .ok ({ s with streams := s.streams ++ [newObservable F fn (opts.getD { qos := 1 })],
                    observables := setProp s.observables F s.streams.length },
           .observable s.streams.length) :=
    fun fn => generalObserve_of_undefined s F fn _ hc hF
  have key : ∀ fn, ∃ s1 : Service, generalObserve s F fn (opts.getD { qos := 1 }) =
      .ok (s1, .observable s.streams.length) ∧ s1.calls = s.calls ∧
      s1.observables = setProp s.observables F s.streams.length ∧
      s1.streams[s.streams.length]? = some (newObservable F fn (opts.getD { qos := 1 })) :=
    fun fn => ⟨_, hobs fn, rfl, rfl, by simp⟩
  obtain ⟨s1, h1, h2, h3, h4⟩ :=
    key (if retained then PublishFn.publishReplay else PublishFn.publish)
  have hproto : F ∉ objectPrototypeKeys := ((getProp_eq_undefined_iff _ _).mp hF).2
  have hatt := attached_many s1 s.streams.length F _ _ h4 n
  rw [h2, h3] at hatt
  have hrel := released_detach_all s.streams.length F (n + 1) _ _ ds _ []
    (released_of_attached _ _ F (n + 1) _ _ (by omega) hatt)
    (by simpa using hnd) (by simpa using hlt)
  refine ⟨s1, s.streams.length, ?_, h2, ?_, ?_, ?_, ?_⟩
  · cases retained
    · simpa [observe] using h1
    · simpa [observeRetained] using h1
  · obtain ⟨o, ho, _, _, _, _, hlen, hopen, _, _⟩ := hatt
    exact ⟨o, ho, hlen, hopen⟩
  · obtain ⟨o, _, _, _, _, _, _, _, hcalls, _⟩ := hatt
    exact hcalls
  · obtain ⟨o, _, _, _, _, _, _, hcalls, _⟩ := hrel
    simpa using hcalls
  · obtain ⟨o, _, _, _, _, _, _, _, hreg⟩ := hrel
    rw [hreg]
    simp only [List.append_nil, List.length_reverse]
    split
    · simp [getProp_deleteProp_self _ _ hproto]
    · simp [getProp_setProp_self]

theorem subscribe_once_unsubscribe_last_witness :
    ∃ s1 id,
      (if false then observeRetained init "a/b".toList none
        else observe init "a/b".toList none) = .ok (s1, .observable id) ∧
      s1.calls = init.calls ∧
      (∃ o, (run s1 (List.replicate 2 (.attach id))).streams[id]? = some o ∧
        o.observers.length = 2 ∧ ∀ ob ∈ o.observers, ob.closed = false) ∧
      (run s1 (List.replicate 2 (.attach id))).calls =
        init.calls ++ [.subscribe "a/b".toList (some ((none : Option Opts).getD { qos := 1 }))
          (some id)] ∧
      (run (run s1 (List.replicate 2 (.attach id)))
          ([1, 0].map (fun i => Event.detach id i))).calls =
        init.calls ++ [.subscribe "a/b".toList (some ((none : Option Opts).getD { qos := 1 }))
          (some id)] ++
          (if [1, 0].length = 2 then [.unsubscribe "a/b".toList] else []) ∧
      getProp (run (run s1 (List.replicate 2 (.attach id)))
          ([1, 0].map (fun i => Event.detach id i))).observables "a/b".toList =
        (if [1, 0].length = 2 then .undefined else .observable id) :=
  subscribe_once_unsubscribe_last init "a/b".toList false none 2 [1, 0] rfl (by decide)
    (by decide) (by decide) (by decide)

/-! ### Resubscription on connect and reconnect -/

/-- C6, as stated, fails: after `observe("a", {qos: 2})` and one attached
observer, the registry holds `a` with the options `{qos: 2}`, and both the
connect and the reconnect handler issue for it a subscribe that carries no
options. -/
theorem resubscribe_drops_options :
    getProp (run init [.observe "a".toList (some { qos := 2 }), .attach 0]).observables
        "a".toList = .observable 0 ∧
      ((run init [.observe "a".toList (some { qos := 2 }), .attach 0]).streams[0]?).map
        (fun o => o.opts) = some { qos := 2 } ∧
      (step (run init [.observe "a".toList (some { qos := 2 }), .attach 0]) .connect).calls =
        (run init [.observe "a".toList (some { qos := 2 }), .attach 0]).calls ++
          [.subscribe "a".toList none none] ∧
      (step (run init [.observe "a".toList (some { qos := 2 }), .attach 0]) .reconnect).calls =
        (run init [.observe "a".toList (some { qos := 2 }), .attach 0]).calls ++
          [.subscribe "a".toList none none] := by
  decide

/-- C6, amended: in every reachable state the keys of the registry are
distinct, and the connect handler and the reconnect handler each issue, in
some order, exactly one subscribe per key, with neither options nor callback;
so the number of subscribes issued is the number of filters in the registry. -/
theorem resubscribe_all (s : Service) (hs : Reachable s) :
    (keys s.observables).Nodup ∧
      (∃ issued, (step s .connect).calls = s.calls ++ issued ∧
        issued.Perm ((keys s.observables).map (fun f => ClientCall.subscribe f none none)) ∧
        issued.length = (keys s.observables).length) ∧
      (∃ issued, (step s .reconnect).calls = s.calls ++ issued ∧
        issued.Perm ((keys s.observables).map (fun f => ClientCall.subscribe f none none)) ∧
        issued.length = (keys s.observables).length) :=
  ⟨hs.consistent.2.2.1,
   ⟨_, rfl, List.Perm.refl _, by simp⟩,
   ⟨_, rfl, List.Perm.refl _, by simp⟩⟩

theorem resubscribe_all_witness :
    (keys (run init [.observe "a".toList none, .attach 0]).observables).Nodup ∧
      (∃ issued, (step (run init [.observe "a".toList none, .attach 0]) .connect).calls =
          (run init [.observe "a".toList none, .attach 0]).calls ++ issued ∧
        issued.Perm ((keys (run init [.observe "a".toList none, .attach 0]).observables).map
          (fun f => ClientCall.subscribe f none none)) ∧
        issued.length = (keys (run init [.observe "a".toList none, .attach 0]).observables).length) ∧
      (∃ issued, (step (run init [.observe "a".toList none, .attach 0]) .reconnect).calls =
          (run init [.observe "a".toList none, .attach 0]).calls ++ issued ∧
        issued.Perm ((keys (run init [.observe "a".toList none, .attach 0]).observables).map
          (fun f => ClientCall.subscribe f none none)) ∧
        issued.length = (keys (run init [.observe "a".toList none, .attach 0]).observables).length) :=
  resubscribe_all _ ⟨[.observe "a".toList none, .attach 0], rfl⟩

/-! ### Routing of inbound messages -/

/-- In a coherent observable, a subscriber that is still subscribed means the
source is connected and the subject has not failed. -/
theorem StreamOk.live_of_open {o : MqttObservable} (h : StreamOk o) (i : Nat) (ob : Observer)
    (hob : o.observers[i]? = some ob) (hopen : ob.closed = false) :
    o.connection = true ∧ o.subjectError = none := by
  obtain ⟨a1, a2, a3, _, _, _⟩ := h
  have hpos := openCount_pos_of_open o.observers i ob hob hopen
  have hc : o.connection = true := a2.mpr (by omega)
  refine ⟨hc, ?_⟩
  cases hs : o.subjectError with
  | none => rfl
  | some e =>
    have := a3 (by simp [hs])
    rw [hc] at this
    exact absurd this (by simp)

theorem deliver_open (p : Packet) (o : MqttObservable) (i : Nat) (ob : Observer)
    (hc : o.connection = true) (hs : o.subjectError = none)
    (hob : o.observers[i]? = some ob) (hopen : ob.closed = false) :
    (deliver p o).observers[i]? = some
      { ob with received := ob.received ++
          (if filterMatchesTopic o.filterString p.topic = some true then [.next p] else []) } := by
  by_cases hm : filterMatchesTopic o.filterString p.topic = some true
  · simp [deliver, hc, hs, accepts, hm, hob, hopen]
  · simp [deliver, hc, hs, accepts, hm, hob]

theorem handleOnMessage_streams (s : Service) (p : Packet) (hp : p.cmd = "publish".toList) :
    (handleOnMessage s p).streams = s.streams.map (deliver p) := by
  simp [handleOnMessage, hp]

/-- C2: in a reachable state, let an observer be attached to the observable of
filter `F`. Of the publish packets that then arrive, in order, the observer
receives exactly those whose topic the matcher accepts for `F`, in their order
of arrival, after what it had received before. -/
theorem message_routing (s : Service) (hs : Reachable s) (id i : Nat) (o : MqttObservable)
    (ob : Observer) (ho : s.streams[id]? = some o) (hob : o.observers[i]? = some ob)
    (hopen : ob.closed = false) (ps : List Packet)
    (hp : ∀ p ∈ ps, p.cmd = "publish".toList) :
    ∃ o' ob', (run s (ps.map (fun p => Event.message p))).streams[id]? = some o' ∧
      o'.filterString = o.filterString ∧
      o'.observers[i]? = some ob' ∧ ob'.closed = false ∧
      ob'.received = ob.received ++
        (ps.filter (fun p => filterMatchesTopic o.filterString p.topic == some true)).map
          Notification.next := by
  induction ps generalizing s o ob with
  | nil => exact ⟨o, ob, by simpa [run] using ho, rfl, hob, hopen, by simp⟩
  | cons p ps ih =>
    have hpub : p.cmd = "publish".toList := hp p (by simp)
    obtain ⟨hc, hse⟩ := (hs.consistent.2.1 id o ho).live_of_open i ob hob hopen
    have ho1 : (step s (.message p)).streams[id]? = some (deliver p o) := by
      simp [step, handleOnMessage_streams s p hpub, ho]
    have hob1 := deliver_open p o i ob hc hse hob hopen
    obtain ⟨o', ob', h1, h2, h3, h4, h5⟩ :=
      ih (step s (.message p)) (hs.step _) (deliver p o) _ ho1 hob1 hopen
        (fun q hq => hp q (List.mem_cons_of_mem _ hq))
    refine ⟨o', ob', by simpa [run_cons] using h1, ?_, h3, h4, ?_⟩
    · rw [h2, deliver_filterString]
    · rw [h5, deliver_filterString]
      by_cases hm : filterMatchesTopic o.filterString p.topic = some true
      · simp [List.filter_cons, hm]
      · simp [List.filter_cons, hm]

theorem message_routing_witness :
    ∃ o' ob',
      (run (run init [.observe "a/b".toList none, .attach 0])
        ([⟨"publish".toList, "a/b".toList, "1".toList⟩,
          ⟨"publish".toList, "a/c".toList, "2".toList⟩].map
            (fun p => Event.message p))).streams[0]? = some o' ∧
      o'.filterString = (newObservable "a/b".toList .publish { qos := 1 }).filterString ∧
      o'.observers[0]? = some ob' ∧ ob'.closed = false ∧
      ob'.received = ([] : List Notification) ++
        (([⟨"publish".toList, "a/b".toList, "1".toList⟩,
          ⟨"publish".toList, "a/c".toList, "2".toList⟩] : List Packet).filter
            (fun p => filterMatchesTopic
              (newObservable "a/b".toList .publish { qos := 1 }).filterString p.topic
                == some true)).map Notification.next :=
  (message_routing (run init [.observe "a/b".toList none, .attach 0])
    ⟨[.observe "a/b".toList none, .attach 0], rfl⟩ 0 0
    { newObservable "a/b".toList .publish { qos := 1 } with
      refCount := 1, connection := true, observers := [⟨[], false⟩] }
    ⟨[], false⟩ (by decide) (by decide) rfl
    [⟨"publish".toList, "a/b".toList, "1".toList⟩, ⟨"publish".toList, "a/c".toList, "2".toList⟩]
    (by decide))

/-! ### The acknowledgment of a subscribe -/

theorem closed_of_openCount_zero (obs : List Observer) (h : openCount obs = 0) :
    ∀ ob ∈ obs, ob.closed = true := by
  intro ob hob
  simp only [openCount, List.length_eq_zero, List.filter_eq_nil_iff] at h
  simpa using h ob hob

theorem step_suback_single (s : Service) (id : Nat) (o : MqttObservable) (g : Granted)
    (hp : id ∈ s.pending) (ho : s.streams[id]? = some o) :
    step s (.suback id (some [g])) =
      subackGranted { s with pending := s.pending.erase id } id o.filterString g := by
  simp [step, hp, subscribeCallback, ho]

theorem subackGranted_of_granted (s : Service) (id : Nat) (F : Str) (g : Granted)
    (hq : g.qos ≠ 128) :
    subackGranted s id F g = { s with emitted := s.emitted ++ [.onSuback F true] } := by
  simp [subackGranted, hq]

theorem subackGranted_of_refused (s : Service) (id : Nat) (F : Str) (g : Granted)
    (hq : g.qos = 128) :
    subackGranted s id F g =
      { rejectedError
          { s with observables := deleteProp s.observables g.topic,
                   calls := s.calls ++ [.unsubscribe g.topic] }
          id (rejectedMessage g.topic) with
        emitted := (rejectedError
          { s with observables := deleteProp s.observables g.topic,
                   calls := s.calls ++ [.unsubscribe g.topic] }
          id (rejectedMessage g.topic)).emitted ++ [.onSuback F false] } := by
  simp [subackGranted, hq]

theorem rejectedError_emitted (s : Service) (id : Nat) (e : Str) :
    (rejectedError s id e).emitted = s.emitted := by
  unfold rejectedError
  split
  · rfl
  · split <;> rfl

theorem rejectedError_client (s : Service) (id : Nat) (e : Str) :
    (rejectedError s id e).client = s.client := by
  unfold rejectedError
  split
  · rfl
  · split <;> rfl

theorem rejectedError_pending (s : Service) (id : Nat) (e : Str) :
    (rejectedError s id e).pending = s.pending := by
  unfold rejectedError
  split
  · rfl
  · split <;> rfl

theorem rejectedError_streams_length (s : Service) (id : Nat) (e : Str) :
    (rejectedError s id e).streams.length = s.streams.length := by
  unfold rejectedError
  split
  · rfl
  · split <;> simp

theorem rejectedError_streams_other (s : Service) (id id' : Nat) (e : Str) (h : id' ≠ id) :
    (rejectedError s id e).streams[id']? = s.streams[id']? := by
  unfold rejectedError
  split
  · rfl
  · split <;> simp [Ne.symm h]

/-- What `rejected_1.error(e)` does to its own observable in a coherent state:
every subscriber still subscribed receives the error and is closed. -/
theorem rejectedError_observers (s : Service) (id : Nat) (o : MqttObservable) (e : Str)
    (ho : s.streams[id]? = some o) (hok : StreamOk o) :
    ∃ o', (rejectedError s id e).streams[id]? = some o' ∧
      o'.filterString = o.filterString ∧
      o'.observers = o.observers.map (fun ob =>
        if ob.closed then ob else { received := ob.received ++ [.error e], closed := true }) := by
  cases hc : o.connection with
  | true =>
    rw [rejectedError_of_connected s id o e ho hc]
    exact ⟨_, put_get_self s id _ _ ho, rfl, rfl⟩
  | false =>
    rw [rejectedError_of_idle s id o e ho hc]
    refine ⟨_, put_get_self s id _ _ ho, rfl, ?_⟩
    have hz : openCount o.observers = 0 := by
      rw [← hok.1]
      exact hok.refCount_eq_zero hc
    have hcl := closed_of_openCount_zero _ hz
    simp only
    symm
    conv => rhs; rw [← List.map_id o.observers]
    apply List.map_congr_left
    intro ob hob
    simp [hcl ob hob]

/-- The calls and the registry after `rejected_1.error(e)`: the teardown of the
resource runs when the source was connected. -/
theorem rejectedError_calls (s : Service) (id : Nat) (o : MqttObservable) (e : Str)
    (ho : s.streams[id]? = some o) :
    (rejectedError s id e).calls =
        s.calls ++ (if o.connection then [.unsubscribe o.filterString] else []) ∧
      (rejectedError s id e).observables =
        (if o.connection then deleteProp s.observables o.filterString else s.observables) := by
  cases hc : o.connection with
  | true =>
    rw [rejectedError_of_connected s id o e ho hc]
    simp
  | false =>
    rw [rejectedError_of_idle s id o e ho hc]
    simp

/-- C7, as stated, fails: after `observe("a")`, one observer attached and
detached, `observe("a")` again and one observer attached to the new observable
1, the callback of the first subscribe for `a` is still pending and observable
1, of filter `a`, has its observer attached. When that callback is called with
granted QoS 128, the entry `a` is deleted and `{filter: a, granted: false}` is
emitted, but the observer attached to `a` has received nothing and is still
subscribed: the failure goes to the subscribers of the acknowledged observable
only. -/
theorem refusal_spares_newer_observer :
    0 ∈ (run init [.observe "a".toList none, .attach 0, .detach 0 0,
        .observe "a".toList none, .attach 1]).pending ∧
      ((run init [.observe "a".toList none, .attach 0, .detach 0 0,
        .observe "a".toList none, .attach 1]).streams[1]?).map
          (fun o => (o.filterString, o.observers)) = some ("a".toList, [⟨[], false⟩]) ∧
      getProp (step (run init [.observe "a".toList none, .attach 0, .detach 0 0,
        .observe "a".toList none, .attach 1])
          (.suback 0 (some [⟨"a".toList, 128⟩]))).observables "a".toList = .undefined ∧
      (step (run init [.observe "a".toList none, .attach 0, .detach 0 0,
        .observe "a".toList none, .attach 1])
          (.suback 0 (some [⟨"a".toList, 128⟩]))).emitted =
        (run init [.observe "a".toList none, .attach 0, .detach 0 0,
          .observe "a".toList none, .attach 1]).emitted ++ [.onSuback "a".toList false] ∧
      ((step (run init [.observe "a".toList none, .attach 0, .detach 0 0,
        .observe "a".toList none, .attach 1])
          (.suback 0 (some [⟨"a".toList, 128⟩]))).streams[1]?).map
          (fun o => (o.filterString, o.observers)) = some ("a".toList, [⟨[], false⟩]) := by
  decide

/-- C7, amended: in a reachable state let the callback of the subscribe that
`_generalObserve` made for the observable `id` of filter `F` be pending (the
subscribes of the connect handlers pass no callback). When it is called with granted QoS
128: `F` is no longer in the registry; the calls added are unsubscribes for
`F`, at least one; every subscriber of that observable still subscribed
receives one error and is closed, every other subscriber and every other
observable is unchanged; `{filter: F, granted: false}` is emitted on
`onSuback`; and a later `_generalObserve` of `F` creates a new observable, at
a new index, whose first subscriber causes a new subscribe for `F`. When it is
called with another QoS, registry, observables and calls are unchanged and
`{filter: F, granted: true}` is emitted. -/
theorem suback_refused_or_granted (s : Service) (hs : Reachable s) (id : Nat)
    (o : MqttObservable) (F : Str) (ho : s.streams[id]? = some o)
    (hF : o.filterString = F) (hp : id ∈ s.pending) :
    (∀ s', s' = step s (.suback id (some [⟨F, 128⟩])) →
      getProp s'.observables F = .undefined ∧
      (∃ issued, s'.calls = s.calls ++ issued ∧ ClientCall.unsubscribe F ∈ issued ∧
        ∀ c ∈ issued, c = ClientCall.unsubscribe F) ∧
      (∃ o', s'.streams[id]? = some o' ∧
        o'.observers = o.observers.map (fun ob =>
          if ob.closed then ob
          else { received := ob.received ++ [.error (rejectedMessage F)], closed := true })) ∧
      (∀ id', id' ≠ id → s'.streams[id']? = s.streams[id']?) ∧
      s'.emitted = s.emitted ++ [.onSuback F false] ∧
      (∀ fn opts, ∃ s2,
        generalObserve s' F fn opts = .ok (s2, .observable s.streams.length) ∧
        s.streams[s.streams.length]? = none ∧
        s2.streams[s.streams.length]? = some (newObservable F fn opts) ∧
        (attach s2 s.streams.length).calls =
          s'.calls ++ [.subscribe F (some opts) (some s.streams.length)])) ∧
    (∀ q s', q ≠ 128 → s' = step s (.suback id (some [⟨F, q⟩])) →
      s'.observables = s.observables ∧ s'.streams = s.streams ∧ s'.calls = s.calls ∧
      s'.emitted = s.emitted ++ [.onSuback F true]) := by
  have hok := hs.consistent.2.1 id o ho
  have hproto : F ∉ objectPrototypeKeys := hF ▸ hok.2.2.2.2.2
  constructor
  · intro s' hs'
    have hreach : Reachable s' := hs' ▸ hs.step _
    rw [step_suback_single s id o _ hp ho, subackGranted_of_refused _ _ _ _ rfl] at hs'
    have ho0 : ({ s with pending := s.pending.erase id,
                         observables := deleteProp s.observables F,
                         calls := s.calls ++ [.unsubscribe F] } : Service).streams[id]? =
        some o := ho
    obtain ⟨hcalls, hreg⟩ := rejectedError_calls _ id o (rejectedMessage F) ho0
    obtain ⟨o', ho', _, hobs⟩ := rejectedError_observers _ id o (rejectedMessage F) ho0 hok
    have hlen : s'.streams.length = s.streams.length := by
      rw [hs']
      exact rejectedError_streams_length _ id _
    have hundef : getProp s'.observables F = .undefined := by
      rw [hs']
      simp only
      rw [hreg, hF]
      split
      · exact getProp_deleteProp_self _ _ hproto
      · exact getProp_deleteProp_self _ _ hproto
    refine ⟨hundef, ?_, ⟨o', by rw [hs']; exact ho', hobs⟩, ?_, ?_, ?_⟩
    · refine ⟨[.unsubscribe F] ++ (if o.connection then [.unsubscribe F] else []), ?_, ?_, ?_⟩
      · rw [hs']
        simp only
        rw [hcalls, hF]
        simp
      · simp
      · intro c hc
        simp only [List.mem_append, List.mem_singleton] at hc
        rcases hc with h | h
        · exact h
        · split at h
          · simpa using h
          · simp at h
    · intro id' hne
      rw [hs']
      exact rejectedError_streams_other _ id id' _ hne
    · rw [hs']
      simp only
      rw [rejectedError_emitted, hF]
    · intro fn opts
      have h1 := generalObserve_of_undefined s' F fn opts hreach.consistent.1 hundef
      rw [hlen] at h1
      refine ⟨_, h1, by simp, by simp [← hlen], ?_⟩
      have hnew : ({ s' with streams := s'.streams ++ [newObservable F fn opts],
                             observables := setProp s'.observables F s.streams.length }
          : Service).streams[s.streams.length]? = some (newObservable F fn opts) := by
        simp [← hlen]
      obtain ⟨_, _, _, _, _, _, _, _, hc, _⟩ := attached_first _ _ F fn opts hnew
      exact hc
  · intro q s' hq hs'
    rw [step_suback_single s id o _ hp ho, subackGranted_of_granted _ _ _ _ hq] at hs'
    rw [hs']
    simp [hF]

theorem suback_refused_or_granted_witness :
    (∀ s', s' = step (run init [.observe "a".toList none, .attach 0])
        (.suback 0 (some [⟨"a".toList, 128⟩])) →
      getProp s'.observables "a".toList = .undefined ∧
      (∃ issued, s'.calls = (run init [.observe "a".toList none, .attach 0]).calls ++ issued ∧
        ClientCall.unsubscribe "a".toList ∈ issued ∧
        ∀ c ∈ issued, c = ClientCall.unsubscribe "a".toList) ∧
      (∃ o', s'.streams[0]? = some o' ∧
        o'.observers = ([⟨[], false⟩] : List Observer).map (fun ob =>
          if ob.closed then ob
          else { received := ob.received ++ [.error (rejectedMessage "a".toList)],
                 closed := true })) ∧
      (∀ id', id' ≠ 0 →
        s'.streams[id']? = (run init [.observe "a".toList none, .attach 0]).streams[id']?) ∧
      s'.emitted = (run init [.observe "a".toList none, .attach 0]).emitted ++
        [.onSuback "a".toList false] ∧
      (∀ fn opts, ∃ s2,
        generalObserve s' "a".toList fn opts =
          .ok (s2, .observable (run init [.observe "a".toList none, .attach 0]).streams.length) ∧
        (run init [.observe "a".toList none, .attach 0]).streams[
          (run init [.observe "a".toList none, .attach 0]).streams.length]? = none ∧
        s2.streams[(run init [.observe "a".toList none, .attach 0]).streams.length]? =
          some (newObservable "a".toList fn opts) ∧
        (attach s2 (run init [.observe "a".toList none, .attach 0]).streams.length).calls =
          s'.calls ++ [.subscribe "a".toList (some opts)
            (some (run init [.observe "a".toList none, .attach 0]).streams.length)])) ∧
    (∀ q s', q ≠ 128 →
      s' = step (run init [.observe "a".toList none, .attach 0])
        (.suback 0 (some [⟨"a".toList, q⟩])) →
      s'.observables = (run init [.observe "a".toList none, .attach 0]).observables ∧
      s'.streams = (run init [.observe "a".toList none, .attach 0]).streams ∧
      s'.calls = (run init [.observe "a".toList none, .attach 0]).calls ∧
      s'.emitted = (run init [.observe "a".toList none, .attach 0]).emitted ++
        [.onSuback "a".toList true]) :=
  suback_refused_or_granted (run init [.observe "a".toList none, .attach 0])
    ⟨[.observe "a".toList none, .attach 0], rfl⟩ 0
    { newObservable "a".toList .publish { qos := 1 } with
      refCount := 1, connection := true, observers := [⟨[], false⟩] }
    "a".toList (by decide) rfl (by decide)

/-! ### What the events leave unchanged -/

theorem sameSubject_refl (o : MqttObservable) : SameSubject o o := ⟨rfl, rfl, rfl⟩

theorem sameSubject_trans {o o' o'' : MqttObservable} (h : SameSubject o o')
    (h' : SameSubject o' o'') : SameSubject o o'' :=
  ⟨h'.1.trans h.1, h'.2.1.trans h.2.1, h'.2.2.trans h.2.2⟩

theorem Frame.refl (s : Service) : Frame s s := fun _ o ho => ⟨o, ho, sameSubject_refl o⟩

theorem Frame.trans {s s' s'' : Service} (h : Frame s s') (h' : Frame s' s'') : Frame s s'' := by
  intro id o ho
  obtain ⟨o', ho', hs⟩ := h id o ho
  obtain ⟨o'', ho'', hs'⟩ := h' id o' ho'
  exact ⟨o'', ho'', sameSubject_trans hs hs'⟩

theorem Frame.of_streams_eq {s s' : Service} (h : s'.streams = s.streams) : Frame s s' := by
  intro id o ho
  exact ⟨o, by rw [h]; exact ho, sameSubject_refl o⟩

theorem frame_teardownResource (s : Service) (F : Str) : Frame s (teardownResource s F) :=
  Frame.of_streams_eq rfl

theorem frame_put (s : Service) (id0 : Nat) (o0 o0' : MqttObservable)
    (h0 : s.streams[id0]? = some o0) (hsame : SameSubject o0 o0') :
    Frame s (s.put id0 o0') := by
  intro id o ho
  by_cases e : id0 = id
  · subst e
    rw [h0] at ho
    simp only [Option.some.injEq] at ho
    subst ho
    exact ⟨o0', put_get_self s id0 o0' o0 h0, hsame⟩
  · exact ⟨o, by rw [put_get_other s id0 id o0' e]; exact ho, sameSubject_refl o⟩

theorem frame_refCountUnsubscribe (s : Service) (id0 : Nat) (o0 oX : MqttObservable)
    (h0 : s.streams[id0]? = some o0) (hsame : SameSubject o0 oX) :
    Frame s (refCountUnsubscribe s id0 oX) := by
  unfold refCountUnsubscribe unsubscribeConnection
  split
  · exact frame_put s id0 o0 _ h0 hsame
  · split
    · refine frame_put s id0 o0 _ h0 ?_
      exact hsame
    · split
      · refine Frame.trans (frame_put s id0 o0 _ h0 ?_) (frame_teardownResource _ _)
        exact hsame
      · refine frame_put s id0 o0 _ h0 ?_
        exact hsame

theorem sameSubject_failSubject (o : MqttObservable) (e : Str) :
    SameSubject o (failSubject o e) := ⟨rfl, rfl, rfl⟩

theorem frame_connectSource (s : Service) (id0 : Nat) (o0 oX : MqttObservable)
    (h0 : s.streams[id0]? = some o0) (hsame : SameSubject o0 oX) :
    Frame s (connectSource s id0 oX) := by
  have hbase : Frame s ({ s with
      calls := s.calls ++ [.subscribe oX.filterString (some oX.opts) (some id0)],
      pending := s.pending ++ [id0] } : Service) := Frame.of_streams_eq rfl
  cases hr : oX.rejectedError with
  | some e =>
    rw [connectSource_of_rejected s id0 oX e hr]
    refine hbase.trans (Frame.trans (frame_put _ id0 o0 _ h0 ?_) (frame_teardownResource _ _))
    exact hsame
  | none =>
    rw [connectSource_of_ok s id0 oX hr]
    refine hbase.trans (frame_put _ id0 o0 _ h0 ?_)
    exact hsame

theorem frame_attach (s : Service) (id0 : Nat) : Frame s (attach s id0) := by
  unfold attach
  split
  · exact Frame.refl s
  · rename_i o h0
    split
    · exact frame_refCountUnsubscribe s id0 o _ h0 ⟨rfl, rfl, rfl⟩
    · simp only
      split
      · exact frame_put s id0 o _ h0 ⟨rfl, rfl, rfl⟩
      · exact frame_connectSource s id0 o _ h0 ⟨rfl, rfl, rfl⟩

theorem frame_detach (s : Service) (id0 i : Nat) : Frame s (detach s id0 i) := by
  unfold detach
  split
  · exact Frame.refl s
  · rename_i o h0
    split
    · exact Frame.refl s
    · split
      · exact Frame.refl s
      · exact frame_refCountUnsubscribe s id0 o _ h0 ⟨rfl, rfl, rfl⟩

theorem frame_rejectedError (s : Service) (id0 : Nat) (e : Str) :
    Frame s (rejectedError s id0 e) := by
  unfold rejectedError
  split
  · exact Frame.refl s
  · rename_i o h0
    split
    · refine Frame.trans (frame_put s id0 o _ h0 ?_) (frame_teardownResource _ _)
      exact ⟨rfl, rfl, rfl⟩
    · exact frame_put s id0 o _ h0 ⟨rfl, rfl, rfl⟩

theorem frame_subackGranted (s : Service) (id0 : Nat) (F : Str) (g : Granted) :
    Frame s (subackGranted s id0 F g) := by
  unfold subackGranted
  by_cases hq : g.qos = 128
  · simp only [hq, if_true]
    have h1 : Frame s ({ s with observables := deleteProp s.observables g.topic,
                                calls := s.calls ++ [.unsubscribe g.topic] } : Service) :=
      Frame.of_streams_eq rfl
    exact h1.trans ((frame_rejectedError _ id0 _).trans (Frame.of_streams_eq rfl))
  · simp only [hq, if_false]
    exact Frame.of_streams_eq rfl

theorem frame_foldl_subackGranted (id0 : Nat) (F : Str) (gs : List Granted) (s : Service) :
    Frame s (gs.foldl (fun s' g => subackGranted s' id0 F g) s) := by
  induction gs generalizing s with
  | nil => exact Frame.refl s
  | cons g gs ih => exact (frame_subackGranted s id0 F g).trans (ih _)

theorem frame_subscribeCallback (s : Service) (id0 : Nat) (granted : Option (List Granted)) :
    Frame s (subscribeCallback s id0 granted) := by
  unfold subscribeCallback
  split
  · exact frame_foldl_subackGranted id0 _ _ s
  · exact Frame.refl s

theorem handleOnMessage_streams_other (s : Service) (p : Packet)
    (hp : p.cmd ≠ "publish".toList) : (handleOnMessage s p).streams = s.streams := by
  unfold handleOnMessage
  rw [if_neg hp]

theorem frame_generalObserve (s : Service) (F : Str) (fn : PublishFn) (opts : Opts) :
    Frame s (stateAfter s (generalObserve s F fn opts)) := by
  unfold generalObserve
  split
  · exact Frame.refl s
  · simp only [stateAfter]
    split
    · intro id o ho
      have hlt : id < s.streams.length := by
        rcases Nat.lt_or_ge id s.streams.length with h1 | h1
        · exact h1
        · rw [List.getElem?_eq_none h1] at ho
          exact absurd ho (by simp)
      exact ⟨o, by simp only; rw [List.getElem?_append_left hlt]; exact ho, sameSubject_refl o⟩
    · exact Frame.refl s

theorem deliver_same_of_not_accepted (p : Packet) (o : MqttObservable)
    (h : filterMatchesTopic o.filterString p.topic ≠ some true) : deliver p o = o := by
  simp [deliver, accepts, h]

theorem frame_step (s : Service) (e : Event) (id : Nat) (o : MqttObservable)
    (ho : s.streams[id]? = some o)
    (he : ∀ q, e = .message q → q.cmd = "publish".toList →
      filterMatchesTopic o.filterString q.topic ≠ some true) :
    ∃ o', (step s e).streams[id]? = some o' ∧ SameSubject o o' := by
  cases e with
  | observe f opts => exact frame_generalObserve s f _ _ id o ho
  | observeRetained f opts => exact frame_generalObserve s f _ _ id o ho
  | attach id0 => exact frame_attach s id0 id o ho
  | detach id0 i => exact frame_detach s id0 i id o ho
  | connect => exact ⟨o, ho, sameSubject_refl o⟩
  | reconnect => exact ⟨o, ho, sameSubject_refl o⟩
  | close => exact ⟨o, ho, sameSubject_refl o⟩
  | error => exact ⟨o, ho, sameSubject_refl o⟩
  | message q =>
    by_cases hq : q.cmd = "publish".toList
    · refine ⟨o, ?_, sameSubject_refl o⟩
      simp only [step, handleOnMessage_streams s q hq, List.getElem?_map, ho, Option.map_some']
      rw [deliver_same_of_not_accepted q o (he q rfl hq)]
    · exact ⟨o, by simp only [step, handleOnMessage_streams_other s q hq]; exact ho,
        sameSubject_refl o⟩
  | suback id0 granted =>
    simp only [step]
    split
    · have h1 : Frame s ({ s with pending := s.pending.erase id0 } : Service) :=
        Frame.of_streams_eq rfl
      exact (h1.trans (frame_subscribeCallback _ id0 granted)) id o ho
    · exact ⟨o, ho, sameSubject_refl o⟩

theorem frame_run (es : List Event) (s : Service) (id : Nat) (o : MqttObservable)
    (ho : s.streams[id]? = some o)
    (he : ∀ q, Event.message q ∈ es → q.cmd = "publish".toList →
      filterMatchesTopic o.filterString q.topic ≠ some true) :
    ∃ o', (run s es).streams[id]? = some o' ∧ SameSubject o o' := by
  induction es generalizing s o with
  | nil => exact ⟨o, ho, sameSubject_refl o⟩
  | cons e es ih =>
    obtain ⟨o1, ho1, h1⟩ := frame_step s e id o ho
      (fun q hq => he q (by rw [hq]; exact List.mem_cons_self _ _))
    obtain ⟨o2, ho2, h2⟩ := ih (step s e) o1 ho1
      (fun q hq hp => by rw [h1.1]; exact he q (List.mem_cons_of_mem _ hq) hp)
    exact ⟨o2, by rw [run_cons]; exact ho2, sameSubject_trans h1 h2⟩

/-! ### Replay of the last message -/

theorem deliver_accepted (p : Packet) (o : MqttObservable) (hc : o.connection = true)
    (hs : o.subjectError = none) (hm : filterMatchesTopic o.filterString p.topic = some true) :
    (deliver p o).filterString = o.filterString ∧ (deliver p o).publishFn = o.publishFn ∧
      (deliver p o).buffer =
        (match o.publishFn with
         | .publishReplay => some p
         | .publish => o.buffer) := by
  simp [deliver, hc, hs, accepts, hm]

theorem StreamOk.subjectError_eq_none {o : MqttObservable} (h : StreamOk o)
    (hc : o.connection = true) : o.subjectError = none := by
  cases hs : o.subjectError with
  | none => rfl
  | some e =>
    have := h.2.2.1 (by simp [hs])
    rw [hc] at this
    exact absurd this (by simp)

/-- C8: whether a late observer gets the last message is fixed by the call
that created the registry entry, not by the call that returned the stream,
against the docstring of `observeRetained` ("Every new subscriber gets the
latest message"). After `observe("a")`, one observer and a message on `a`,
`observeRetained("a")` returns the existing observable 0 and an observer
attached to it receives nothing; after `observeRetained("a")`, one observer and
a message on `a`, `observe("a")` returns the existing observable 0 and an
observer attached to it receives the earlier message. -/
theorem replay_depends_on_first_call :
    (observeRetained (run init [.observe "a".toList none, .attach 0,
        .message ⟨"publish".toList, "a".toList, "m".toList⟩]) "a".toList none =
      .ok (run init [.observe "a".toList none, .attach 0,
        .message ⟨"publish".toList, "a".toList, "m".toList⟩], .observable 0) ∧
     ((run init [.observe "a".toList none, .attach 0,
        .message ⟨"publish".toList, "a".toList, "m".toList⟩,
        .observeRetained "a".toList none, .attach 0]).streams[0]?).map
          (fun o => o.observers) =
      some [⟨[.next ⟨"publish".toList, "a".toList, "m".toList⟩], false⟩, ⟨[], false⟩]) ∧
    (observe (run init [.observeRetained "a".toList none, .attach 0,
        .message ⟨"publish".toList, "a".toList, "m".toList⟩]) "a".toList none =
      .ok (run init [.observeRetained "a".toList none, .attach 0,
        .message ⟨"publish".toList, "a".toList, "m".toList⟩], .observable 0) ∧
     ((run init [.observeRetained "a".toList none, .attach 0,
        .message ⟨"publish".toList, "a".toList, "m".toList⟩,
        .observe "a".toList none, .attach 0]).streams[0]?).map
          (fun o => o.observers) =
      some [⟨[.next ⟨"publish".toList, "a".toList, "m".toList⟩], false⟩,
            ⟨[.next ⟨"publish".toList, "a".toList, "m".toList⟩], false⟩]) :=
  ⟨⟨rfl, by decide⟩, ⟨rfl, by decide⟩⟩

/-- Replay by creating call. In a reachable state, a call of `observe(F)` or
`observeRetained(F)` for a filter already in the registry returns the existing
observable and changes nothing, and for a filter not in it creates an
observable with a plain subject (`observe`) or a replaying one
(`observeRetained`). Let a publish packet `p` accepted for the filter of a
connected observable arrive, followed by any events without a further accepted
publish packet; an observer that then attaches while the observable is still
connected at once receives `p` and nothing else if the observable was created
by `observeRetained`, and nothing if it was created by `observe`. -/
theorem replay_follows_creating_call (s : Service) (hs : Reachable s) :
    (∀ (id : Nat) (o o2 : MqttObservable) (p : Packet) (es : List Event),
      s.streams[id]? = some o → o.connection = true →
      p.cmd = "publish".toList → filterMatchesTopic o.filterString p.topic = some true →
      (∀ q, Event.message q ∈ es → q.cmd = "publish".toList →
        filterMatchesTopic o.filterString q.topic ≠ some true) →
      (run (step s (.message p)) es).streams[id]? = some o2 → o2.connection = true →
      ∃ o3 ob,
        (step (run (step s (.message p)) es) (.attach id)).streams[id]? = some o3 ∧
        o3.observers.length = o2.observers.length + 1 ∧
        o3.observers[o2.observers.length]? = some ob ∧ ob.closed = false ∧
        (o.publishFn = .publishReplay → ob.received = [.next p]) ∧
        (o.publishFn = .publish → ob.received = [])) ∧
    (∀ (F : Str) (id : Nat) (opts : Option Opts),
      getProp s.observables F = .observable id →
      observe s F opts = .ok (s, .observable id) ∧
      observeRetained s F opts = .ok (s, .observable id)) ∧
    (∀ (F : Str) (opts : Option Opts), getProp s.observables F = .undefined →
      ∃ s1 s2,
        observe s F opts = .ok (s1, .observable s.streams.length) ∧
        (s1.streams[s.streams.length]?).map (fun o => o.publishFn) = some .publish ∧
        observeRetained s F opts = .ok (s2, .observable s.streams.length) ∧
        (s2.streams[s.streams.length]?).map (fun o => o.publishFn) = some .publishReplay) := by
  refine ⟨?_, ?_, ?_⟩
  · intro id o o2 p es ho hlive hp hm hes ho2 hlive2
    have hok := hs.consistent.2.1 id o ho
    have hse := hok.subjectError_eq_none hlive
    obtain ⟨d1, d2, d3⟩ := deliver_accepted p o hlive hse hm
    have ho1 : (step s (.message p)).streams[id]? = some (deliver p o) := by
      simp [step, handleOnMessage_streams s p hp, ho]
    obtain ⟨o2', ho2', hsame⟩ := frame_run es (step s (.message p)) id (deliver p o) ho1
      (fun q hq hqp => by rw [d1]; exact hes q hq hqp)
    rw [ho2] at ho2'
    simp only [Option.some.injEq] at ho2'
    subst ho2'
    have hreach2 : Reachable (run (step s (.message p)) es) := (hs.step _).run es
    have hok2 := hreach2.consistent.2.1 id o2 ho2
    have hse2 := hok2.subjectError_eq_none hlive2
    have hatt := attach_of_connected _ id o2 ho2 hse2 hlive2
    refine ⟨{ o2 with refCount := o2.refCount + 1,
                      observers := o2.observers ++ [⟨replayed o2, false⟩] },
      ⟨replayed o2, false⟩, ?_, ?_, ?_, rfl, ?_, ?_⟩
    · show (attach (run (step s (.message p)) es) id).streams[id]? = _
      rw [hatt]
      exact put_get_self _ id _ _ ho2
    · simp
    · simp
    · intro hfn
      simp only [replayed, hsame.2.1, d2, hfn, hsame.2.2, d3]
      rfl
    · intro hfn
      simp only [replayed, hsame.2.1, d2, hfn]
  · intro F id opts hF
    have hne : getProp s.observables F ≠ .undefined := by rw [hF]; simp
    constructor
    · simp [observe, generalObserve_of_defined s F _ _ hs.consistent.1 hne, hF]
    · simp [observeRetained, generalObserve_of_defined s F _ _ hs.consistent.1 hne, hF]
  · intro F opts hF
    refine ⟨_, _, generalObserve_of_undefined s F _ _ hs.consistent.1 hF, ?_,
      generalObserve_of_undefined s F _ _ hs.consistent.1 hF, ?_⟩
    · simp [newObservable]
    · simp [newObservable]

theorem replay_follows_creating_call_witness :
    ∃ o3 ob,
      (step (run (step (run init [.observeRetained "a".toList none, .attach 0])
          (.message ⟨"publish".toList, "a".toList, "m".toList⟩)) []) (.attach 0)).streams[0]? =
        some o3 ∧
      o3.observers.length = 1 + 1 ∧
      o3.observers[1]? = some ob ∧ ob.closed = false ∧
      (PublishFn.publishReplay = .publishReplay →
        ob.received = [.next ⟨"publish".toList, "a".toList, "m".toList⟩]) ∧
      (PublishFn.publishReplay = .publish → ob.received = []) :=
  (replay_follows_creating_call (run init [.observeRetained "a".toList none, .attach 0])
    ⟨[.observeRetained "a".toList none, .attach 0], rfl⟩).1 0
    { newObservable "a".toList .publishReplay { qos := 1 } with
      refCount := 1, connection := true, observers := [⟨[], false⟩] }
    { newObservable "a".toList .publishReplay { qos := 1 } with
      refCount := 1, connection := true,
      buffer := some ⟨"publish".toList, "a".toList, "m".toList⟩,
      observers := [⟨[.next ⟨"publish".toList, "a".toList, "m".toList⟩], false⟩] }
    ⟨"publish".toList, "a".toList, "m".toList⟩ []
    (by decide) rfl rfl (by decide) (by simp) (by decide) rfl

/-! ### Release and reacquisition of a filter -/

/-- C9, as stated, fails: the registry is keyed by the filter string only.
After `observe("a")`, one observer attached and detached, `observe("a")` again
and one observer attached to the new observable 1, the registry holds the new
entry and the callback of the first subscribe is still pending. When that
callback is then called with granted QoS 128, the entry `a` is deleted and an
unsubscribe for `a` is issued, while the observer of observable 1 stays
attached and has received no error: a filter with an attached, non-failed
observer has no entry in the registry. -/
theorem stale_refusal_removes_new_entry :
    getProp (run init [.observe "a".toList none, .attach 0, .detach 0 0,
        .observe "a".toList none, .attach 1]).observables "a".toList = .observable 1 ∧
      0 ∈ (run init [.observe "a".toList none, .attach 0, .detach 0 0,
        .observe "a".toList none, .attach 1]).pending ∧
      getProp (run init [.observe "a".toList none, .attach 0, .detach 0 0,
        .observe "a".toList none, .attach 1,
        .suback 0 (some [⟨"a".toList, 128⟩])]).observables "a".toList = .undefined ∧
      (run init [.observe "a".toList none, .attach 0, .detach 0 0,
        .observe "a".toList none, .attach 1,
        .suback 0 (some [⟨"a".toList, 128⟩])]).calls =
        (run init [.observe "a".toList none, .attach 0, .detach 0 0,
          .observe "a".toList none, .attach 1]).calls ++ [.unsubscribe "a".toList] ∧
      ((run init [.observe "a".toList none, .attach 0, .detach 0 0,
        .observe "a".toList none, .attach 1,
        .suback 0 (some [⟨"a".toList, 128⟩])]).streams[1]?).map
          (fun o => (o.connection, o.observers)) = some (true, [⟨[], false⟩]) := by
  decide

theorem getElem?_lt_length {α : Type} (l : List α) (i : Nat) (a : α) (h : l[i]? = some a) :
    i < l.length := by
  rcases Nat.lt_or_ge i l.length with h1 | h1
  · exact h1
  · rw [List.getElem?_eq_none h1] at h
    exact absurd h (by simp)

/-- C9, amended: in a reachable state let `F` be in the registry with an
observable `id0` that has one subscriber left and whose subscribe callback is
still pending. When that subscriber detaches and `F` is observed again, the
registry holds a new observable, at a new index, and its first subscriber
causes a new subscribe for `F`. If the pending callback of the earlier
subscribe is then called with a QoS other than 128, registry, calls and
observables are unchanged; if it is called with QoS 128, the entry stored
under `F` is deleted and one unsubscribe for `F` is issued, while the new
observable, with its attached subscriber, is unchanged. -/
theorem reacquire_then_stale_ack (s : Service) (hs : Reachable s) (F : Str) (id0 i : Nat)
    (o0 : MqttObservable) (ob : Observer) (fn : PublishFn) (opts : Opts)
    (hreg : getProp s.observables F = .observable id0) (ho : s.streams[id0]? = some o0)
    (hrc : o0.refCount = 1) (hob : o0.observers[i]? = some ob) (hopen : ob.closed = false)
    (hp : id0 ∈ s.pending) :
    ∃ s2 s3,
      generalObserve (detach s id0 i) F fn opts = .ok (s2, .observable s.streams.length) ∧
      s.streams.length ≠ id0 ∧ s3 = attach s2 s.streams.length ∧
      s3.calls = s.calls ++
        [.unsubscribe F, .subscribe F (some opts) (some s.streams.length)] ∧
      getProp s3.observables F = .observable s.streams.length ∧
      (∃ o1, s3.streams[s.streams.length]? = some o1 ∧ o1.connection = true ∧
        o1.observers = [⟨[], false⟩]) ∧
      (∀ q s4, q ≠ 128 → s4 = step s3 (.suback id0 (some [⟨F, q⟩])) →
        s4.observables = s3.observables ∧ s4.calls = s3.calls ∧ s4.streams = s3.streams) ∧
      (∀ s4, s4 = step s3 (.suback id0 (some [⟨F, 128⟩])) →
        getProp s4.observables F = .undefined ∧
        s4.calls = s3.calls ++ [.unsubscribe F] ∧
        s4.streams[s.streams.length]? = s3.streams[s.streams.length]?) := by
  have hcons := hs.consistent
  have hok := hcons.2.1 id0 o0 ho
  have hF : o0.filterString = F := by
    obtain ⟨o, ho', hk⟩ := hcons.2.2.2 F id0 ((getProp_eq_observable_iff _ _ _).mp hreg)
    rw [ho] at ho'
    simp only [Option.some.injEq] at ho'
    rw [ho', hk]
  have hproto : F ∉ objectPrototypeKeys := hF ▸ hok.2.2.2.2.2
  have hconn : o0.connection = true := hok.2.1.mpr (by omega)
  have hlt : id0 < s.streams.length := getElem?_lt_length _ _ _ ho
  have hne : s.streams.length ≠ id0 := by omega
  -- the last subscriber detaches
  have hdet := detach_last s id0 i o0 ob ho hob hopen hrc hconn
  have h1len : (detach s id0 i).streams.length = s.streams.length := by
    rw [hdet]; simp
  have h1o : (detach s id0 i).streams[id0]? = some
      { o0 with refCount := 0, connection := false,
                observers := o0.observers.set i { ob with closed := true } } := by
    rw [hdet]
    exact put_get_self s id0 _ _ ho
  have h1calls : (detach s id0 i).calls = s.calls ++ [.unsubscribe F] := by
    rw [hdet]; simp [hF]
  have h1reg : (detach s id0 i).observables = deleteProp s.observables F := by
    rw [hdet]; simp [hF]
  have h1pend : (detach s id0 i).pending = s.pending := by
    rw [hdet]; rfl
  have h1client : (detach s id0 i).client = true := by
    rw [hdet]; exact hcons.1
  have h1undef : getProp (detach s id0 i).observables F = .undefined := by
    rw [h1reg]
    exact getProp_deleteProp_self _ _ hproto
  -- the filter is observed again
  have hobs := generalObserve_of_undefined (detach s id0 i) F fn opts h1client h1undef
  rw [h1len] at hobs
  obtain ⟨s2, hs2⟩ : ∃ s2 : Service, s2 =
      { detach s id0 i with
        streams := (detach s id0 i).streams ++ [newObservable F fn opts],
        observables := setProp (detach s id0 i).observables F s.streams.length } := ⟨_, rfl⟩
  rw [← hs2] at hobs
  have h2new : s2.streams[s.streams.length]? = some (newObservable F fn opts) := by
    rw [hs2]
    simp [← h1len]
  have h2old : s2.streams[id0]? = some
      { o0 with refCount := 0, connection := false,
                observers := o0.observers.set i { ob with closed := true } } := by
    rw [hs2]
    simp only
    rw [List.getElem?_append_left (by rw [h1len]; exact hlt)]
    exact h1o
  have h2calls : s2.calls = s.calls ++ [.unsubscribe F] := by rw [hs2]; exact h1calls
  have h2reg : s2.observables = setProp (deleteProp s.observables F) F s.streams.length := by
    rw [hs2]
    simp only
    rw [h1reg]
  have h2pend : s2.pending = s.pending := by rw [hs2]; exact h1pend
  -- a subscriber attaches to the new observable
  have hatt := attach_idle_ok s2 s.streams.length _ h2new rfl rfl rfl
  obtain ⟨s3, hs3⟩ : ∃ s3 : Service, s3 = attach s2 s.streams.length := ⟨_, rfl⟩
  rw [← hs3] at hatt
  have h3calls : s3.calls = s.calls ++
      [.unsubscribe F, .subscribe F (some opts) (some s.streams.length)] := by
    rw [hatt]
    simp [h2calls, newObservable]
  have h3reg : s3.observables = setProp (deleteProp s.observables F) F s.streams.length := by
    rw [hatt]
    exact h2reg
  have h3old : s3.streams[id0]? = some
      { o0 with refCount := 0, connection := false,
                observers := o0.observers.set i { ob with closed := true } } := by
    rw [hatt, put_get_other _ _ _ _ hne]
    exact h2old
  have h3pend : id0 ∈ s3.pending := by
    rw [hatt]
    simp [h2pend, hp]
  refine ⟨s2, s3, hobs, hne, hs3, h3calls, ?_, ?_, ?_, ?_⟩
  · rw [h3reg]
    exact getProp_setProp_self _ _ _
  · rw [hatt]
    exact ⟨_, put_get_self _ _ _ _ h2new, rfl,
      by cases fn <;> simp [newObservable, replayed]⟩
  · intro q s4 hq hs4
    rw [step_suback_single s3 id0 _ _ h3pend h3old,
      subackGranted_of_granted _ _ _ _ hq] at hs4
    rw [hs4]
    exact ⟨rfl, rfl, rfl⟩
  · intro s4 hs4
    rw [step_suback_single s3 id0 _ _ h3pend h3old,
      subackGranted_of_refused _ _ _ _ rfl] at hs4
    have ho3' : ({ s3 with pending := s3.pending.erase id0,
                           observables := deleteProp s3.observables F,
                           calls := s3.calls ++ [.unsubscribe F] } : Service).streams[id0]? =
        some { o0 with refCount := 0, connection := false,
                       observers := o0.observers.set i { ob with closed := true } } := h3old
    obtain ⟨hcalls, hregs⟩ := rejectedError_calls _ id0 _ (rejectedMessage F) ho3'
    refine ⟨?_, ?_, ?_⟩
    · rw [hs4]
      simp only
      rw [hregs]
      simp only [Bool.false_eq_true, if_false]
      exact getProp_deleteProp_self _ _ hproto
    · rw [hs4]
      simp only
      rw [hcalls]
      simp
    · rw [hs4]
      simp only
      exact rejectedError_streams_other _ id0 _ _ hne

theorem reacquire_then_stale_ack_witness :
    ∃ s2 s3,
      generalObserve (detach (run init [.observe "a".toList none, .attach 0]) 0 0)
          "a".toList .publish { qos := 1 } =
        .ok (s2, .observable (run init [.observe "a".toList none, .attach 0]).streams.length) ∧
      (run init [.observe "a".toList none, .attach 0]).streams.length ≠ 0 ∧
      s3 = attach s2 (run init [.observe "a".toList none, .attach 0]).streams.length ∧
      s3.calls = (run init [.observe "a".toList none, .attach 0]).calls ++
        [.unsubscribe "a".toList,
         .subscribe "a".toList (some { qos := 1 })
           (some (run init [.observe "a".toList none, .attach 0]).streams.length)] ∧
      getProp s3.observables "a".toList =
        .observable (run init [.observe "a".toList none, .attach 0]).streams.length ∧
      (∃ o1, s3.streams[(run init [.observe "a".toList none, .attach 0]).streams.length]? =
          some o1 ∧ o1.connection = true ∧ o1.observers = [⟨[], false⟩]) ∧
      (∀ q s4, q ≠ 128 → s4 = step s3 (.suback 0 (some [⟨"a".toList, q⟩])) →
        s4.observables = s3.observables ∧ s4.calls = s3.calls ∧ s4.streams = s3.streams) ∧
      (∀ s4, s4 = step s3 (.suback 0 (some [⟨"a".toList, 128⟩])) →
        getProp s4.observables "a".toList = .undefined ∧
        s4.calls = s3.calls ++ [.unsubscribe "a".toList] ∧
        s4.streams[(run init [.observe "a".toList none, .attach 0]).streams.length]? =
          s3.streams[(run init [.observe "a".toList none, .attach 0]).streams.length]?) :=
  reacquire_then_stale_ack (run init [.observe "a".toList none, .attach 0])
    ⟨[.observe "a".toList none, .attach 0], rfl⟩ "a".toList 0 0
    { newObservable "a".toList .publish { qos := 1 } with
      refCount := 1, connection := true, observers := [⟨[], false⟩] }
    ⟨[], false⟩ .publish { qos := 1 }
    (by decide) (by decide) rfl (by decide) rfl (by decide)

end MqttService
